import Mathlib

/-!
Verification development for the simple C HTTP server (src/server.c).

The C code is shallowly embedded over `List Nat` byte strings:

* a C string (NUL-terminated `char *`) is modelled as the list of its
  bytes up to, and not including, the first 0 byte;
* `malloc`/`realloc` results are modelled by an allocation oracle
  `alloc : Nat → Bool` consulted at successive indices (one index per
  allocation attempt, threaded as an explicit counter); freshly
  allocated memory is modelled as filled with the junk byte 170;
* the filesystem is an oracle structure `FS`; every `stat`/`open`/
  `fstat`/`read`/`close`/`free` performed by `serve_static_file` is
  recorded in an explicit event trace;
* `write(fd, …)` calls by the connection handler are collected in a
  list of written byte strings (one element per write call).
-/

namespace Server

/-- Bytes of a Lean string literal (ASCII), without a terminator.
Models the character array content of a C string literal. -/
def strBytes (s : String) : List Nat := s.data.map Char.toNat

/-- Bytes of a C string literal including its terminating NUL byte:
this is what actually sits in memory, and what a `memcpy` of
`strlen(s) + 1` bytes reads. -/
def cstr (s : String) : List Nat := strBytes s ++ [0]

/-- Junk byte filling freshly allocated (uninitialized) memory. -/
def junk : Nat := 170

/-- CRLF bytes. -/
def crlf : List Nat := [13, 10]

/-! ## Response buffer (src/server.c lines 72-215) -/

/-- `response_t`: `data` models the allocated block (length = `capacity`),
`size` the logical content size. -/
structure Response where
  data : List Nat
  size : Nat
  capacity : Nat
  deriving Repr, DecidableEq

/-- The bytes `write(client_fd, res.data, res.size)` would transmit. -/
def assembled (r : Response) : List Nat := r.data.take r.size

/-- `response_init` (lines 140-149): `malloc(initial_capacity)`, on success
`size = 0`, `data[0] = '\0'`.  The allocation oracle is consulted at
index `cnt`; the counter advances whether or not the attempt succeeds. -/
def response_init (alloc : Nat → Bool) (cnt : Nat) (initial_capacity : Nat) :
    Option Response × Nat :=
  if alloc cnt then
    (some ⟨(List.replicate initial_capacity junk).set 0 0, 0, initial_capacity⟩, cnt + 1)
  else
    (none, cnt + 1)

/-- The capacity-doubling loop of `response_append` (lines 154-157):
`new_capacity = capacity * 2; while (new_capacity < need) new_capacity *= 2;`.
`fuel` makes the recursion structural; callers pass `fuel = need`, which is
enough for the loop to finish whenever the start value is positive. -/
def growLoop : Nat → Nat → Nat → Nat
  | 0, newCap, _ => newCap
  | fuel + 1, newCap, need => if newCap < need then growLoop fuel (newCap * 2) need else newCap

/-- Resulting capacity of the growth loop for current capacity `cap` and
required size `need`. -/
def growCap (cap need : Nat) : Nat := growLoop need (cap * 2) need

/-- `memcpy(data + pos, d, d.length)` followed by `data[pos + d.length] = '\0'`
on a buffer modelled as a list. -/
def bufWrite (data : List Nat) (pos : Nat) (d : List Nat) : List Nat :=
  data.take pos ++ d ++ [0] ++ data.drop (pos + d.length + 1)

/-- `response_append` (lines 152-169).  Returns the C function's status
(`true` for 0, `false` for -1), the resulting buffer (unchanged when
`realloc` fails) and the advanced allocation counter. -/
def response_append (alloc : Nat → Bool) (cnt : Nat) (r : Response) (d : List Nat) :
    Bool × Response × Nat :=
  if r.size + d.length + 1 > r.capacity then
    let newCap := growCap r.capacity (r.size + d.length + 1)
    if alloc cnt then
      let data1 := r.data ++ List.replicate (newCap - r.data.length) junk
      (true, ⟨bufWrite data1 r.size d, r.size + d.length, newCap⟩, cnt + 1)
    else
      (false, r, cnt + 1)
  else
    (true, ⟨bufWrite r.data r.size d, r.size + d.length, r.capacity⟩, cnt)

/-- `response_printf` (lines 172-183): `vsnprintf` into a `BUFFER_SIZE`
(8192) scratch buffer; a rendered length of 8192 or more makes it return
-1 without appending; otherwise it delegates to `response_append`.
Each call site's format string is rendered on the caller's side, so the
argument here is the already-rendered byte string. -/
def response_printf (alloc : Nat → Bool) (cnt : Nat) (r : Response) (s : List Nat) :
    Bool × Response × Nat :=
  if s.length ≥ 8192 then (false, r, cnt) else response_append alloc cnt r s

/-- Decimal digit list (most significant first) of `n / 10^…`; `fuel`
bounds the recursion, callers pass `fuel = n`. -/
def natDecimalAux : Nat → Nat → List Nat
  | 0, _ => []
  | fuel + 1, n => if n = 0 then [] else natDecimalAux fuel (n / 10) ++ [n % 10 + 48]

/-- ASCII decimal rendering of a natural number, as `printf`'s `%d`/`%zu`
produce for the in-range values the server passes. -/
def natDecimal (n : Nat) : List Nat := if n = 0 then [48] else natDecimalAux n n

/-- The status-text table of `send_http_response` (lines 196-204). -/
def statusText (status : Nat) : List Nat :=
  if status = 200 then strBytes "OK"
  else if status = 400 then strBytes "Bad Request"
  else if status = 404 then strBytes "Not Found"
  else if status = 405 then strBytes "Method Not Allowed"
  else if status = 500 then strBytes "Internal Server Error"
  else strBytes "Unknown"

/-- `send_http_response` (lines 194-215): five `response_printf` calls for
status line and headers, then one `response_append` for the body when
`body_len > 0` (the `body` pointer is never NULL at any call site).
`memcpy` reads exactly `body_len` bytes from `body`.  All return codes
are discarded, exactly as in the C code. -/
def send_http_response (alloc : Nat → Bool) (cnt : Nat) (r : Response)
    (status : Nat) (content_type : List Nat) (body : List Nat) (body_len : Nat) :
    Response × Nat :=
  let (_, r1, c1) := response_printf alloc cnt r
    (strBytes "HTTP/1.1 " ++ natDecimal status ++ [32] ++ statusText status ++ crlf)
  let (_, r2, c2) := response_printf alloc c1 r1
    (strBytes "Content-Type: " ++ content_type ++ crlf)
  let (_, r3, c3) := response_printf alloc c2 r2
    (strBytes "Content-Length: " ++ natDecimal body_len ++ crlf)
  let (_, r4, c4) := response_printf alloc c3 r3 (strBytes "Connection: close" ++ crlf)
  let (_, r5, c5) := response_printf alloc c4 r4 crlf
  if 0 < body_len then
    let (_, r6, c6) := response_append alloc c5 r5 (body.take body_len)
    (r6, c6)
  else
    (r5, c5)

/-- An allocation oracle on which every allocation succeeds. -/
def allocOk : Nat → Bool := fun _ => true

/-- Buffer invariant: the block has exactly `capacity` bytes, the logical
size (plus the terminator) fits, and the byte at index `size` is NUL. -/
def Inv (r : Response) : Prop :=
  r.data.length = r.capacity ∧ r.size + 1 ≤ r.capacity ∧ r.data[r.size]? = some 0

/-- The full byte string of one HTTP response as assembled by
`send_http_response`, with `sentBody` the bytes actually appended
(so its `Content-Length` equals the transmitted body's length). -/
def http_response_bytes (status : Nat) (stext : List Nat) (content_type : List Nat)
    (sentBody : List Nat) : List Nat :=
  strBytes "HTTP/1.1 " ++ natDecimal status ++ [32] ++ stext ++ crlf ++
  strBytes "Content-Type: " ++ content_type ++ crlf ++
  strBytes "Content-Length: " ++ natDecimal sentBody.length ++ crlf ++
  strBytes "Connection: close" ++ crlf ++ crlf ++ sentBody

/-- A well-formed single HTTP response: status line, the three headers,
blank line, body, with `Content-Length` equal to the body's byte count. -/
def WellFormedHttp (w : List Nat) : Prop :=
  ∃ status stext content_type sentBody,
    w = http_response_bytes status stext content_type sentBody

/-! ## Request parser (src/server.c lines 218-321) -/

/-- Index of the first occurrence of byte `c`, as `strchr` computes it
(the input list is a NUL-free C string). -/
def firstIdx (c : Nat) : List Nat → Option Nat
  | [] => none
  | x :: xs => if x = c then some 0 else (firstIdx c xs).map (· + 1)

/-- `parse_request_line` (lines 277-321).  `none` models the -1 return.
The bounded `strncpy`s into `path[512]` and `query_string[512]` appear as
`take 511`; the `uri_len < 512` guard makes them copies without
truncation. -/
def parse_request_line (raw : List Nat) : Option (List Nat × List Nat × List Nat) :=
  let request := raw.takeWhile (· ≠ 0)
  match firstIdx 32 request with
  | none => none
  | some i1 =>
    if 16 ≤ i1 then none
    else
      let method := request.take i1
      let rest := request.drop (i1 + 1)
      match firstIdx 32 rest with
      | none => none
      | some i2 =>
        if 512 ≤ i2 then none
        else
          let uri := rest.take i2
          match firstIdx 63 uri with
          | some q => some (method, (uri.take q).take 511, (uri.drop (q + 1)).take 511)
          | none => some (method, uri.take 511, [])

/-- Is `c` an ASCII hexadecimal digit? -/
def isHexDigit (c : Nat) : Bool :=
  (48 ≤ c && c ≤ 57) || (65 ≤ c && c ≤ 70) || (97 ≤ c && c ≤ 102)

/-- Value of a hexadecimal digit. -/
def hexVal (c : Nat) : Nat :=
  if c ≤ 57 then c - 48 else if c ≤ 70 then c - 55 else c - 87

/-- `isspace` in the C locale. -/
def isSpaceByte (c : Nat) : Bool := c = 32 || (9 ≤ c && c ≤ 13)

/-- `strtol(hex, &end, 16)` on the two-character string `[a, b]`:
returns the parsed value and `end - hex` (characters consumed).
`strtol` skips leading white space, accepts an optional sign, then
base-16 digits (a bare "0x" prefix consumes only the "0"). -/
def strtol2 (a b : Nat) : Int × Nat :=
  if isHexDigit a && isHexDigit b then ((16 * hexVal a + hexVal b : Nat), 2)
  else if isHexDigit a then ((hexVal a : Nat), 1)
  else if (a = 43 || isSpaceByte a) && isHexDigit b then ((hexVal b : Nat), 2)
  else if a = 45 && isHexDigit b then (-(hexVal b : Nat), 2)
  else (0, 0)

/-- The byte stored by `dst[i++] = (char)val`: the value's low byte. -/
def strtolByte (a b : Nat) : Nat := ((strtol2 a b).1 % 256).toNat

/-- The loop of `url_decode` (lines 218-238): `i` is the output index,
`dsz` the destination size; the loop runs while `*src` is nonzero and
`i < dsz - 1`.  A `%` with two following nonzero bytes that `strtol`
fully consumes becomes the parsed byte; otherwise the `%` is copied and
scanning resumes at the next byte; `+` becomes a space; anything else is
copied unchanged. -/
def url_decode_go : List Nat → Nat → Nat → List Nat
  | [], _, _ => []
  | c :: rest, i, dsz =>
    if c = 0 ∨ ¬ i < dsz - 1 then []
    else if c = 37 then
      match rest with
      | s1 :: s2 :: rest3 =>
        if s1 ≠ 0 ∧ s2 ≠ 0 ∧ (strtol2 s1 s2).2 = 2 then
          strtolByte s1 s2 :: url_decode_go rest3 (i + 1) dsz
        else
          37 :: url_decode_go (s1 :: s2 :: rest3) (i + 1) dsz
      | [] => 37 :: url_decode_go [] (i + 1) dsz
      | [s1] => 37 :: url_decode_go [s1] (i + 1) dsz
    else if c = 43 then 32 :: url_decode_go rest (i + 1) dsz
    else c :: url_decode_go rest (i + 1) dsz

/-- `url_decode(dst, src, dst_size)`: the decoded bytes written to `dst`
(the trailing NUL terminator is not part of the content). -/
def url_decode (src : List Nat) (dst_size : Nat) : List Nat :=
  url_decode_go src 0 dst_size

/-- Split a list at every occurrence of `sep`, keeping empty pieces. -/
def splitOnByte (sep : Nat) : List Nat → List (List Nat)
  | [] => [[]]
  | c :: rest =>
    if c = sep then [] :: splitOnByte sep rest
    else
      match splitOnByte sep rest with
      | t :: ts => (c :: t) :: ts
      | [] => [[c]]

/-- The token sequence produced by repeated `strtok_r(…, "&", …)`: the
maximal nonempty runs between separators. -/
def ampTokens (l : List Nat) : List (List Nat) :=
  (splitOnByte 38 l).filter (fun t => ¬ t.isEmpty)

/-- Per-token body of the `parse_query_string` loop: `strchr(pair, '=')`;
with an `=`, the key and value are `url_decode`d into 256-byte fields;
without one the token is dropped. -/
def pairOfToken (tok : List Nat) : Option (List Nat × List Nat) :=
  match firstIdx 61 tok with
  | some j => some (url_decode (tok.take j) 256, url_decode (tok.drop (j + 1)) 256)
  | none => none

/-- The `while (pair && params->count < MAX_QUERY_PARAMS)` loop
(lines 254-263), with its running `count`. -/
def pqsLoop : List (List Nat) → Nat → List (List Nat × List Nat)
  | [], _ => []
  | tok :: rest, count =>
    if count < 32 then
      match pairOfToken tok with
      | some kv => kv :: pqsLoop rest (count + 1)
      | none => pqsLoop rest count
    else []

/-- `parse_query_string` (lines 241-264): the query is first copied into
an 8192-byte local buffer by `strncpy` (`take 8191` of its C-string
content), then tokenized on `&` and folded by the counting loop. -/
def parse_query_string (query : List Nat) : List (List Nat × List Nat) :=
  pqsLoop (ampTokens ((query.takeWhile (· ≠ 0)).take 8191)) 0

/-! ## MIME resolver (src/server.c lines 93-115, 324-337) -/

/-- The `mime_types` table, in its source order. -/
def mime_types : List (List Nat × List Nat) :=
  [(strBytes ".html", strBytes "text/html"),
   (strBytes ".htm", strBytes "text/html"),
   (strBytes ".css", strBytes "text/css"),
   (strBytes ".js", strBytes "application/javascript"),
   (strBytes ".json", strBytes "application/json"),
   (strBytes ".xml", strBytes "application/xml"),
   (strBytes ".png", strBytes "image/png"),
   (strBytes ".jpg", strBytes "image/jpeg"),
   (strBytes ".jpeg", strBytes "image/jpeg"),
   (strBytes ".gif", strBytes "image/gif"),
   (strBytes ".svg", strBytes "image/svg+xml"),
   (strBytes ".ico", strBytes "image/x-icon"),
   (strBytes ".txt", strBytes "text/plain"),
   (strBytes ".pdf", strBytes "application/pdf")]

/-- `tolower` in the C locale. -/
def lowerByte (c : Nat) : Nat := if 65 ≤ c ∧ c ≤ 90 then c + 32 else c

/-- `strcasecmp(a, b) == 0`. -/
def strcaseEq (a b : List Nat) : Bool := a.map lowerByte = b.map lowerByte

/-- Index of the last occurrence of byte `c`, as `strrchr` computes it. -/
def lastIdx (c : Nat) : List Nat → Option Nat
  | [] => none
  | x :: xs =>
    match lastIdx c xs with
    | some i => some (i + 1)
    | none => if x = c then some 0 else none

/-- The scan of `get_mime_type`'s `for` loop over the table. -/
def mimeScan : List (List Nat × List Nat) → List Nat → List Nat
  | [], _ => strBytes "application/octet-stream"
  | (ext, mt) :: rest, e => if strcaseEq e ext then mt else mimeScan rest e

/-- `get_mime_type` (lines 324-337). -/
def get_mime_type (path : List Nat) : List Nat :=
  match lastIdx 46 path with
  | none => strBytes "application/octet-stream"
  | some i => mimeScan mime_types (path.drop i)

/-! ## Static file resolver (src/server.c lines 340-407) -/

/-- Does the path contain the two-byte sequence ".."?  (`strstr`) -/
def containsDotDot : List Nat → Bool
  | a :: b :: rest => (a = 46 && b = 46) || containsDotDot (b :: rest)
  | _ => false

/-- `is_safe_path` (lines 340-348). -/
def is_safe_path (path : List Nat) : Bool :=
  if containsDotDot path then false
  else if path.head? ≠ some 47 then false
  else true

/-- Filesystem oracle: results of `stat` (directory flag and size),
`open` success, `fstat` (size) and the bytes a single `read` of the
file can deliver. -/
structure FS where
  stat : List Nat → Option (Bool × Nat)
  openOk : List Nat → Bool
  fstat : List Nat → Option Nat
  readBytes : List Nat → List Nat

/-- One filesystem / file-buffer event performed by `serve_static_file`,
with its outcome. -/
inductive FSOp where
  | statOp (p : List Nat) (r : Option (Bool × Nat))
  | openOp (p : List Nat) (ok : Bool)
  | fstatOp (p : List Nat) (r : Option Nat)
  | closeOp
  | mallocOp (n : Nat) (ok : Bool)
  | readOp (p : List Nat) (want got : Nat)
  | freeOp
  deriving Repr, DecidableEq

/-- Does the event record a successful `open`? -/
def isOpenOkOp : FSOp → Bool
  | FSOp.openOp _ true => true
  | _ => false

/-- Is the event a `close`? -/
def isCloseOp : FSOp → Bool
  | FSOp.closeOp => true
  | _ => false

/-- Does the event record a successful `malloc`? -/
def isMallocOkOp : FSOp → Bool
  | FSOp.mallocOp _ true => true
  | _ => false

/-- Is the event a `free`? -/
def isFreeOp : FSOp → Bool
  | FSOp.freeOp => true
  | _ => false

/-- Resource balance of an event trace: as many `close` events as
successful opens, as many `free` events as successful mallocs. -/
def balancedTrace (ops : List FSOp) : Prop :=
  (ops.filter isOpenOkOp).length = (ops.filter isCloseOp).length ∧
  (ops.filter isMallocOkOp).length = (ops.filter isFreeOp).length

/-- `snprintf(filepath, 1024, "%s%s", DOCUMENT_ROOT, request_path)`:
the concatenation, truncated to the 1023 characters that fit. -/
def base_filepath (request_path : List Nat) : List Nat :=
  (strBytes "./public" ++ request_path).take 1023

/-- The directory step (lines 363-369): when `stat` succeeds and reports
a directory, a '/' is appended by `strncat` unless already present, then
`DEFAULT_INDEX`; both `strncat`s are bounded by the remaining room. -/
def resolve_path (fs : FS) (request_path : List Nat) : List Nat :=
  let fp := base_filepath request_path
  match fs.stat fp with
  | some (true, _) =>
    let fp1 := if fp ≠ [] ∧ fp.getLast? ≠ some 47 then (fp ++ [47]).take 1023 else fp
    (fp1 ++ strBytes "index.html").take 1023
  | _ => fp

/-- `serve_static_file` (lines 351-407).  Returns the response buffer,
the advanced allocation counter, and the trace of filesystem /
file-buffer events in program order. -/
def serve_static_file (fs : FS) (alloc : Nat → Bool) (cnt : Nat)
    (request_path : List Nat) (res : Response) : Response × Nat × List FSOp :=
  if is_safe_path request_path = false then
    let (r, c) := send_http_response alloc cnt res 400 (strBytes "text/html")
      (cstr "<h1>400 Bad Request</h1>") 24
    (r, c, [])
  else
    let fp := base_filepath request_path
    let fp2 := resolve_path fs request_path
    let ops0 := [FSOp.statOp fp (fs.stat fp)]
    if fs.openOk fp2 = false then
      let (r, c) := send_http_response alloc cnt res 404 (strBytes "text/html")
        (cstr "<h1>404 Not Found</h1>") 23
      (r, c, ops0 ++ [FSOp.openOp fp2 false])
    else
      match fs.fstat fp2 with
      | none =>
        let (r, c) := send_http_response alloc cnt res 500 (strBytes "text/html")
          (cstr "<h1>500 Internal Server Error</h1>") 35
        (r, c, ops0 ++ [FSOp.openOp fp2 true, FSOp.fstatOp fp2 none, FSOp.closeOp])
      | some sz =>
        if alloc cnt = false then
          let (r, c) := send_http_response alloc (cnt + 1) res 500 (strBytes "text/html")
            (cstr "<h1>500 Internal Server Error</h1>") 35
          (r, c, ops0 ++ [FSOp.openOp fp2 true, FSOp.fstatOp fp2 (some sz),
                          FSOp.mallocOp sz false, FSOp.closeOp])
        else
          let content := (fs.readBytes fp2).take sz
          let ops1 := ops0 ++ [FSOp.openOp fp2 true, FSOp.fstatOp fp2 (some sz),
                               FSOp.mallocOp sz true, FSOp.readOp fp2 sz content.length,
                               FSOp.closeOp]
          if content.length ≠ sz then
            let (r, c) := send_http_response alloc (cnt + 1) res 500 (strBytes "text/html")
              (cstr "<h1>500 Internal Server Error</h1>") 35
            (r, c, ops1 ++ [FSOp.freeOp])
          else
            let (r, c) := send_http_response alloc (cnt + 1) res 200 (get_mime_type fp2)
              content sz
            (r, c, ops1 ++ [FSOp.freeOp])

/-! ## Route table and connection handler (src/server.c lines 117-128, 409-490) -/

/-- A route handler mutates the response buffer (and may allocate). -/
abbrev Handler := (Nat → Bool) → Nat → Response → Response × Nat

/-- `handle_home` (lines 410-414); the body is passed with `strlen(body)`. -/
def handle_home : Handler := fun alloc cnt res =>
  send_http_response alloc cnt res 200 (strBytes "text/html")
    (cstr "<h1>Welcome!</h1><p>Simple C HTTP Server</p>")
    (strBytes "<h1>Welcome!</h1><p>Simple C HTTP Server</p>").length

/-- `handle_about` (lines 416-420). -/
def handle_about : Handler := fun alloc cnt res =>
  send_http_response alloc cnt res 200 (strBytes "text/html")
    (cstr "<h1>About</h1><p>Multithreaded C Server with Static Files</p>")
    (strBytes "<h1>About</h1><p>Multithreaded C Server with Static Files</p>").length

/-- `handle_health` (lines 422-426); note the JSON body. -/
def handle_health : Handler := fun alloc cnt res =>
  send_http_response alloc cnt res 200 (strBytes "application/json")
    (cstr "\x7b\"status\":\"healthy\",\"threads\":\"enabled\"\x7d")
    (strBytes "\x7b\"status\":\"healthy\",\"threads\":\"enabled\"\x7d").length

/-- The `routes` table (lines 123-128), in source order. -/
def routes : List (List Nat × Handler) :=
  [(strBytes "/", handle_home),
   (strBytes "/about", handle_about),
   (strBytes "/health", handle_health)]

/-- The scan of `handle_dynamic_route` (lines 429-437): first exact
`strcmp` match wins; `none` models the 0 return (no route matched). -/
def routeScan (alloc : Nat → Bool) (cnt : Nat) (path : List Nat) (res : Response) :
    List (List Nat × Handler) → Option (Response × Nat)
  | [] => none
  | (rp, h) :: rest =>
    if path = rp then some (h alloc cnt res) else routeScan alloc cnt path res rest

/-- `handle_dynamic_route` (lines 429-437). -/
def handle_dynamic_route (alloc : Nat → Bool) (cnt : Nat) (path : List Nat)
    (res : Response) : Option (Response × Nat) :=
  routeScan alloc cnt path res routes

/-- `handle_request` (lines 440-490) for an incoming byte stream `raw`:
`read` delivers at most 8191 bytes (`raw.take 8191`); an empty result
ends the connection silently.  The buffer is NUL-terminated at the bytes
read, so parsing sees its C-string prefix.  Returns the list of byte
strings passed to `write` (one element per `write` call) and the
filesystem trace. -/
def handle_request (fs : FS) (alloc : Nat → Bool) (raw : List Nat) :
    List (List Nat) × List FSOp :=
  if raw = [] then ([], [])
  else
    let buffer := (raw.take 8191).takeWhile (· ≠ 0)
    match response_init alloc 0 8192 with
    | (none, _) => ([], [])
    | (some res, cnt) =>
      match parse_request_line buffer with
      | none =>
        let (r, _) := send_http_response alloc cnt res 400 (strBytes "text/html")
          (cstr "<h1>400 Bad Request</h1>") 24
        ([assembled r], [])
      | some (method, path, query_string) =>
        if method ≠ strBytes "GET" then
          let (r, _) := send_http_response alloc cnt res 405 (strBytes "text/html")
            (cstr "<h1>405 Method Not Allowed</h1>") 32
          ([assembled r], [])
        else
          let _query_params := parse_query_string query_string
          match handle_dynamic_route alloc cnt path res with
          | some (r, _) => ([assembled r], [])
          | none =>
            let (r, _, ops) := serve_static_file fs alloc cnt path res
            ([assembled r], ops)

/-! ## Distinguished values used throughout the development -/

/-- The buffer produced by the `response_init(&res, BUFFER_SIZE)` call of
`handle_request` when its `malloc` succeeds. -/
def freshRes : Response := ⟨(List.replicate 8192 junk).set 0 0, 0, 8192⟩

/-- The fixed 400 response as transmitted (`body_len` 24 = `strlen`). -/
def resp400 : List Nat :=
  http_response_bytes 400 (statusText 400) (strBytes "text/html")
    (strBytes "<h1>400 Bad Request</h1>")

/-- The fixed 404 response as transmitted (`body_len` 23 = `strlen + 1`,
so the body carries the NUL terminator of the C literal). -/
def resp404 : List Nat :=
  http_response_bytes 404 (statusText 404) (strBytes "text/html")
    (strBytes "<h1>404 Not Found</h1>" ++ [0])

/-- The fixed 405 response as transmitted (`body_len` 32 = `strlen + 1`). -/
def resp405 : List Nat :=
  http_response_bytes 405 (statusText 405) (strBytes "text/html")
    (strBytes "<h1>405 Method Not Allowed</h1>" ++ [0])

/-- The fixed 500 response as transmitted (`body_len` 35 = `strlen + 1`). -/
def resp500 : List Nat :=
  http_response_bytes 500 (statusText 500) (strBytes "text/html")
    (strBytes "<h1>500 Internal Server Error</h1>" ++ [0])

/-- The home-route 200 response. -/
def respHome : List Nat :=
  http_response_bytes 200 (statusText 200) (strBytes "text/html")
    (strBytes "<h1>Welcome!</h1><p>Simple C HTTP Server</p>")

/-- The about-route 200 response. -/
def respAbout : List Nat :=
  http_response_bytes 200 (statusText 200) (strBytes "text/html")
    (strBytes "<h1>About</h1><p>Multithreaded C Server with Static Files</p>")

/-- The health-route 200 response. -/
def respHealth : List Nat :=
  http_response_bytes 200 (statusText 200) (strBytes "application/json")
    (strBytes "\x7b\"status\":\"healthy\",\"threads\":\"enabled\"\x7d")

/-- Buffer states reachable by one `response_init` (as `handle_request`
issues it, with a positive capacity) followed by any sequence of
`response_append` calls, successful or not. -/
inductive Reach (alloc : Nat → Bool) : Response → Nat → Prop where
  | init : ∀ cap r cnt', 1 ≤ cap → response_init alloc 0 cap = (some r, cnt') →
      Reach alloc r cnt'
  | step : ∀ r cnt d ok r' cnt', Reach alloc r cnt →
      response_append alloc cnt r d = (ok, r', cnt') → Reach alloc r' cnt'

/-- An empty filesystem oracle: everything fails. -/
def fsEmpty : FS := ⟨fun _ => none, fun _ => false, fun _ => none, fun _ => []⟩

/-- Filesystem oracle for the partial-write scenario: every path stats
as a regular 8200-byte file that opens, fstats to 8200 bytes and reads
8200 ASCII zeros. -/
def fsBig : FS :=
  ⟨fun _ => some (false, 8200), fun _ => true, fun _ => some 8200,
   fun _ => List.replicate 8200 48⟩

/-- Allocation oracle granting exactly the first two requests (the
response buffer of `response_init` and the file buffer of `malloc`) and
denying every later one, in particular the `realloc` that would grow the
response buffer to hold the 8200-byte body. -/
def allocTwo : Nat → Bool := fun n => decide (n < 2)

/-- The header-only partial response written in that scenario: a 200
status line and headers advertising an 8200-byte body, with no body
following. -/
def c2hdr : List Nat :=
  strBytes "HTTP/1.1 200 OK\r\nContent-Type: application/octet-stream\r\nContent-Length: 8200\r\nConnection: close\r\n\r\n"

/-! ## Lemmas about the response buffer -/

theorem growLoop_ge_start (fuel start need : Nat) : start ≤ growLoop fuel start need := by
  induction fuel generalizing start with
  | zero => simp [growLoop]
  | succ n ih =>
    simp only [growLoop]
    split
    · exact le_trans (by omega) (ih (start * 2))
    · exact le_refl _

theorem growLoop_ge_need (fuel start need : Nat) (h1 : 1 ≤ start)
    (h2 : need ≤ start + fuel) : need ≤ growLoop fuel start need := by
  induction fuel generalizing start with
  | zero => simpa [growLoop] using by omega
  | succ n ih =>
    simp only [growLoop]
    split
    · exact ih (start * 2) (by omega) (by omega)
    · omega

theorem growCap_ge_need (cap need : Nat) (h : 1 ≤ cap) : need ≤ growCap cap need :=
  growLoop_ge_need need (cap * 2) need (by omega) (by omega)

theorem growCap_ge_double (cap need : Nat) : 2 * cap ≤ growCap cap need := by
  simpa [Nat.mul_comm] using growLoop_ge_start need (cap * 2) need

theorem bufWrite_length (data : List Nat) (pos : Nat) (d : List Nat)
    (h : pos + d.length + 1 ≤ data.length) :
    (bufWrite data pos d).length = data.length := by
  simp only [bufWrite, List.length_append, List.length_take, List.length_drop,
    List.length_cons, List.length_nil]
  omega

theorem bufWrite_take (data : List Nat) (pos : Nat) (d : List Nat)
    (h : pos ≤ data.length) :
    (bufWrite data pos d).take (pos + d.length) = data.take pos ++ d := by
  have h1 : (data.take pos).length = pos := List.length_take_of_le h
  simp only [bufWrite, List.append_assoc, List.take_append_eq_append_take, h1]
  rw [List.take_of_length_le (l := data.take pos) (by omega)]
  have h2 : pos + d.length - pos = d.length := by omega
  rw [h2]
  simp

theorem bufWrite_nul (data : List Nat) (pos : Nat) (d : List Nat)
    (h : pos ≤ data.length) :
    (bufWrite data pos d)[pos + d.length]? = some 0 := by
  have h1 : (data.take pos).length = pos := List.length_take_of_le h
  have : bufWrite data pos d = (data.take pos ++ d) ++ ([0] ++ data.drop (pos + d.length + 1)) := by
    simp [bufWrite]
  rw [this, List.getElem?_append_right (by simp [h1])]
  simp [h1]

theorem response_append_ok (alloc : Nat → Bool) (cnt : Nat) (r : Response) (d : List Nat)
    (h : Inv r) (hga : r.capacity < r.size + d.length + 1 → alloc cnt = true) :
    ∃ r' cnt', response_append alloc cnt r d = (true, r', cnt') ∧
      assembled r' = assembled r ++ d ∧ Inv r' ∧
      r.capacity ≤ r'.capacity ∧ r'.size = r.size + d.length ∧
      (r.capacity < r.size + d.length + 1 → 2 * r.capacity ≤ r'.capacity) ∧
      cnt ≤ cnt' := by
  obtain ⟨hlen, hsz, _⟩ := h
  by_cases hgrow : r.size + d.length + 1 > r.capacity
  · have halloc := hga (by omega)
    have hneed : r.size + d.length + 1 ≤ growCap r.capacity (r.size + d.length + 1) :=
      growCap_ge_need _ _ (by omega)
    have hdouble : 2 * r.capacity ≤ growCap r.capacity (r.size + d.length + 1) :=
      growCap_ge_double _ _
    have hdl : (r.data ++ List.replicate
        (growCap r.capacity (r.size + d.length + 1) - r.data.length) junk).length =
        growCap r.capacity (r.size + d.length + 1) := by
      simp [hlen]; omega
    refine ⟨⟨bufWrite (r.data ++ List.replicate
        (growCap r.capacity (r.size + d.length + 1) - r.data.length) junk) r.size d,
        r.size + d.length, growCap r.capacity (r.size + d.length + 1)⟩, cnt + 1,
        ?_, ?_, ⟨?_, by dsimp only; omega, ?_⟩, by dsimp only; omega, rfl,
        fun _ => by dsimp only; omega, by omega⟩
    · simp only [response_append, if_pos hgrow, halloc, if_true]
    · show (bufWrite _ r.size d).take (r.size + d.length) = r.data.take r.size ++ d
      rw [bufWrite_take _ _ _ (by omega), List.take_append_eq_append_take,
        Nat.sub_eq_zero_of_le (by omega)]
      simp
    · show (bufWrite _ r.size d).length = _
      rw [bufWrite_length _ _ _ (by omega), hdl]
    · exact bufWrite_nul _ _ _ (by omega)
  · push_neg at hgrow
    refine ⟨⟨bufWrite r.data r.size d, r.size + d.length, r.capacity⟩, cnt,
        ?_, ?_, ⟨?_, by dsimp only; omega, ?_⟩, le_refl _, rfl,
        fun hh => absurd hh (by omega), le_refl _⟩
    · simp only [response_append, if_neg (by omega : ¬ r.size + d.length + 1 > r.capacity)]
    · exact bufWrite_take _ _ _ (by omega)
    · show (bufWrite _ r.size d).length = _
      rw [bufWrite_length _ _ _ (by omega), hlen]
    · exact bufWrite_nul _ _ _ (by omega)

theorem response_printf_ok (alloc : Nat → Bool) (cnt : Nat) (r : Response) (s : List Nat)
    (h : Inv r) (hfit : s.length < 8192)
    (hga : r.capacity < r.size + s.length + 1 → alloc cnt = true) :
    ∃ r' cnt', response_printf alloc cnt r s = (true, r', cnt') ∧
      assembled r' = assembled r ++ s ∧ Inv r' ∧
      r.capacity ≤ r'.capacity ∧ r'.size = r.size + s.length ∧ cnt ≤ cnt' := by
  obtain ⟨r', cnt', heq, h1, h2, h3, h4, _, h5⟩ := response_append_ok alloc cnt r s h hga
  refine ⟨r', cnt', ?_, h1, h2, h3, h4, h5⟩
  rw [response_printf, if_neg (by omega)]
  exact heq

theorem natDecimalAux_len_le (fuel n k : Nat) (h : n < 10 ^ k) :
    (natDecimalAux fuel n).length ≤ k := by
  induction fuel generalizing n k with
  | zero => simp [natDecimalAux]
  | succ m ih =>
    by_cases h0 : n = 0
    · simp [natDecimalAux, h0]
    · have hk : k ≠ 0 := by
        rintro rfl; simp at h; omega
      obtain ⟨k', rfl⟩ : ∃ k', k = k' + 1 := ⟨k - 1, by omega⟩
      have hdiv : n / 10 < 10 ^ k' := by
        rw [Nat.div_lt_iff_lt_mul (by norm_num)]
        calc n < 10 ^ (k' + 1) := h
        _ = 10 ^ k' * 10 := by ring
      simp only [natDecimalAux, if_neg h0, List.length_append, List.length_cons,
        List.length_nil]
      have := ih (n / 10) k' hdiv
      omega

theorem natDecimal_len_le (n k : Nat) (h : n < 10 ^ k) (hk : 1 ≤ k) :
    (natDecimal n).length ≤ k := by
  by_cases h0 : n = 0
  · simp [natDecimal, h0]; omega
  · simp only [natDecimal, if_neg h0]
    exact natDecimalAux_len_le n n k h

/-- Every MIME type the table scan can return is one of the table's
content types or the octet-stream default. -/
theorem mimeScan_cases (tbl : List (List Nat × List Nat)) (e : List Nat) :
    mimeScan tbl e = strBytes "application/octet-stream" ∨
      ∃ p ∈ tbl, mimeScan tbl e = p.2 := by
  induction tbl with
  | nil => left; rfl
  | cons hd tl ih =>
    obtain ⟨ext, mt⟩ := hd
    by_cases hm : strcaseEq e ext
    · right; exact ⟨(ext, mt), by simp, by simp [mimeScan, hm]⟩
    · rcases ih with h | ⟨p, hp, hpe⟩
      · left; simpa [mimeScan, hm] using h
      · right; exact ⟨p, by simp [hp], by simpa [mimeScan, hm] using hpe⟩

theorem get_mime_type_len_le (p : List Nat) : (get_mime_type p).length ≤ 24 := by
  unfold get_mime_type
  split
  · decide
  · rcases mimeScan_cases mime_types (p.drop _) with h | ⟨q, hq, hqe⟩
    · rw [h]; decide
    · rw [hqe]
      fin_cases hq <;> decide

theorem send_http_response_okg (alloc : Nat → Bool) (cnt : Nat) (r : Response)
    (status : Nat) (content_type : List Nat) (body : List Nat) (body_len : Nat)
    (h : Inv r) (hal : ∀ c, cnt ≤ c → alloc c = true)
    (h1 : (strBytes "HTTP/1.1 " ++ natDecimal status ++ [32] ++ statusText status
            ++ crlf).length < 8192)
    (h2 : (strBytes "Content-Type: " ++ content_type ++ crlf).length < 8192)
    (h3 : (strBytes "Content-Length: " ++ natDecimal body_len ++ crlf).length < 8192)
    (hb : body_len ≤ body.length) :
    ∃ r' cnt', send_http_response alloc cnt r status content_type body body_len =
        (r', cnt') ∧
      assembled r' = assembled r ++
        http_response_bytes status (statusText status) content_type (body.take body_len) ∧
      Inv r' := by
  obtain ⟨r1, c1, e1, a1, i1, _, _, m1⟩ := response_printf_ok alloc cnt r
    (strBytes "HTTP/1.1 " ++ natDecimal status ++ [32] ++ statusText status ++ crlf)
    h h1 (fun _ => hal cnt (le_refl _))
  obtain ⟨r2, c2, e2, a2, i2, _, _, m2⟩ := response_printf_ok alloc c1 r1
    (strBytes "Content-Type: " ++ content_type ++ crlf) i1 h2 (fun _ => hal c1 m1)
  obtain ⟨r3, c3, e3, a3, i3, _, _, m3⟩ := response_printf_ok alloc c2 r2
    (strBytes "Content-Length: " ++ natDecimal body_len ++ crlf) i2 h3
    (fun _ => hal c2 (le_trans m1 m2))
  obtain ⟨r4, c4, e4, a4, i4, _, _, m4⟩ := response_printf_ok alloc c3 r3
    (strBytes "Connection: close" ++ crlf) i3 (by decide)
    (fun _ => hal c3 (le_trans (le_trans m1 m2) m3))
  obtain ⟨r5, c5, e5, a5, i5, _, _, m5⟩ := response_printf_ok alloc c4 r4 crlf i4
    (by decide) (fun _ => hal c4 (le_trans (le_trans (le_trans m1 m2) m3) m4))
  have hlen_take : (body.take body_len).length = body_len := List.length_take_of_le hb
  by_cases hpos : 0 < body_len
  · obtain ⟨r6, c6, e6, a6, i6, _, _, _⟩ := response_append_ok alloc c5 r5
      (body.take body_len) i5
      (fun _ => hal c5 (le_trans (le_trans (le_trans (le_trans m1 m2) m3) m4) m5))
    refine ⟨r6, c6, ?_, ?_, i6⟩
    · unfold send_http_response
      rw [e1]; dsimp only
      rw [e2]; dsimp only
      rw [e3]; dsimp only
      rw [e4]; dsimp only
      rw [e5]; dsimp only
      rw [if_pos hpos, e6]
    · rw [a6, a5, a4, a3, a2, a1]
      simp [http_response_bytes, hlen_take, crlf]
  · refine ⟨r5, c5, ?_, ?_, i5⟩
    · unfold send_http_response
      rw [e1]; dsimp only
      rw [e2]; dsimp only
      rw [e3]; dsimp only
      rw [e4]; dsimp only
      rw [e5]; dsimp only
      rw [if_neg hpos]
    · have hb0 : body_len = 0 := by omega
      rw [a5, a4, a3, a2, a1]
      simp [http_response_bytes, hb0, crlf]

theorem send_http_response_ok (cnt : Nat) (r : Response)
    (status : Nat) (content_type : List Nat) (body : List Nat) (body_len : Nat)
    (h : Inv r)
    (h1 : (strBytes "HTTP/1.1 " ++ natDecimal status ++ [32] ++ statusText status
            ++ crlf).length < 8192)
    (h2 : (strBytes "Content-Type: " ++ content_type ++ crlf).length < 8192)
    (h3 : (strBytes "Content-Length: " ++ natDecimal body_len ++ crlf).length < 8192)
    (hb : body_len ≤ body.length) :
    ∃ r' cnt', send_http_response allocOk cnt r status content_type body body_len =
        (r', cnt') ∧
      assembled r' = assembled r ++
        http_response_bytes status (statusText status) content_type (body.take body_len) ∧
      Inv r' :=
  send_http_response_okg allocOk cnt r status content_type body body_len h
    (fun _ _ => rfl) h1 h2 h3 hb

theorem response_init_allocOk (cnt : Nat) :
    response_init allocOk cnt 8192 = (some freshRes, cnt + 1) := rfl

theorem freshRes_inv : Inv freshRes := by
  refine ⟨?_, ?_, ?_⟩
  · simp only [freshRes, List.length_set, List.length_replicate]
  · simp only [freshRes]; omega
  · show ((List.replicate 8192 junk).set 0 0)[(0:Nat)]? = some 0
    rw [List.getElem?_set_eq_of_lt]
    simp only [List.length_replicate]; omega

theorem assembled_freshRes : assembled freshRes = [] := by
  simp only [assembled, freshRes, List.take_zero]

/-! ## Case analysis of `serve_static_file` -/

/-- Boolean condition rewrites used to reduce the branch guards. -/
theorem bool_eq_false_of_true (b : Bool) (h : b = true) : (b = false) = False := by
  simp [h]

theorem bool_eq_false_of_false (b : Bool) (h : b = false) : (b = false) = True := by
  simp [h]

/-- Unsafe paths produce no filesystem event, under any allocation oracle. -/
theorem serve_static_unsafe_ops (fs : FS) (alloc : Nat → Bool) (cnt : Nat)
    (res : Response) (p : List Nat) (hbad : is_safe_path p = false) :
    (serve_static_file fs alloc cnt p res).2.2 = [] := by
  unfold serve_static_file
  rw [hbad, if_pos rfl]

theorem serve_static_unsafe (fs : FS) (cnt : Nat) (res : Response) (p : List Nat)
    (h : Inv res) (hbad : is_safe_path p = false) :
    ∃ r' c', serve_static_file fs allocOk cnt p res = (r', c', []) ∧
      assembled r' = assembled res ++ http_response_bytes 400 (statusText 400)
        (strBytes "text/html") (strBytes "<h1>400 Bad Request</h1>") ∧ Inv r' := by
  obtain ⟨r', c', heq, ha, hi⟩ := send_http_response_ok cnt res 400 (strBytes "text/html")
    (cstr "<h1>400 Bad Request</h1>") 24 h (by decide) (by decide) (by decide) (by decide)
  rw [(by decide : (cstr "<h1>400 Bad Request</h1>").take 24 =
    strBytes "<h1>400 Bad Request</h1>")] at ha
  refine ⟨r', c', ?_, ha, hi⟩
  unfold serve_static_file
  rw [hbad, if_pos rfl, heq]

theorem serve_static_open_fail (fs : FS) (cnt : Nat) (res : Response) (p : List Nat)
    (h : Inv res) (hsafe : is_safe_path p = true)
    (hopen : fs.openOk (resolve_path fs p) = false) :
    ∃ r' c', serve_static_file fs allocOk cnt p res =
      (r', c', [FSOp.statOp (base_filepath p) (fs.stat (base_filepath p)),
                FSOp.openOp (resolve_path fs p) false]) ∧
      assembled r' = assembled res ++ http_response_bytes 404 (statusText 404)
        (strBytes "text/html") (strBytes "<h1>404 Not Found</h1>" ++ [0]) ∧ Inv r' := by
  obtain ⟨r', c', heq, ha, hi⟩ := send_http_response_ok cnt res 404 (strBytes "text/html")
    (cstr "<h1>404 Not Found</h1>") 23 h (by decide) (by decide) (by decide) (by decide)
  rw [(by decide : (cstr "<h1>404 Not Found</h1>").take 23 =
    strBytes "<h1>404 Not Found</h1>" ++ [0])] at ha
  refine ⟨r', c', ?_, ha, hi⟩
  unfold serve_static_file
  rw [hsafe, if_neg (by decide : ¬ ((true : Bool) = false))]
  dsimp only
  rw [hopen, if_pos rfl, heq]
  rfl

theorem serve_static_fstat_fail (fs : FS) (cnt : Nat) (res : Response) (p : List Nat)
    (h : Inv res) (hsafe : is_safe_path p = true)
    (hopen : fs.openOk (resolve_path fs p) = true)
    (hfstat : fs.fstat (resolve_path fs p) = none) :
    ∃ r' c', serve_static_file fs allocOk cnt p res =
      (r', c', [FSOp.statOp (base_filepath p) (fs.stat (base_filepath p)),
                FSOp.openOp (resolve_path fs p) true,
                FSOp.fstatOp (resolve_path fs p) none, FSOp.closeOp]) ∧
      assembled r' = assembled res ++ http_response_bytes 500 (statusText 500)
        (strBytes "text/html")
        (strBytes "<h1>500 Internal Server Error</h1>" ++ [0]) ∧ Inv r' := by
  obtain ⟨r', c', heq, ha, hi⟩ := send_http_response_ok cnt res 500 (strBytes "text/html")
    (cstr "<h1>500 Internal Server Error</h1>") 35 h (by decide) (by decide) (by decide)
    (by decide)
  rw [(by decide : (cstr "<h1>500 Internal Server Error</h1>").take 35 =
    strBytes "<h1>500 Internal Server Error</h1>" ++ [0])] at ha
  refine ⟨r', c', ?_, ha, hi⟩
  unfold serve_static_file
  rw [hsafe, if_neg (by decide : ¬ ((true : Bool) = false))]
  dsimp only
  rw [hopen, if_neg (by decide : ¬ ((true : Bool) = false))]
  rw [hfstat, heq]
  rfl

/-- The `malloc(st.st_size)` failure branch: the oracle denies the file
buffer allocation (index `cnt`) but still grants every later response
buffer growth. -/
theorem serve_static_malloc_fail (fs : FS) (alloc : Nat → Bool) (cnt : Nat)
    (res : Response) (p : List Nat) (sz : Nat) (h : Inv res)
    (hsafe : is_safe_path p = true)
    (hopen : fs.openOk (resolve_path fs p) = true)
    (hfstat : fs.fstat (resolve_path fs p) = some sz)
    (hmal : alloc cnt = false) (hal : ∀ c, cnt + 1 ≤ c → alloc c = true) :
    ∃ r' c', serve_static_file fs alloc cnt p res =
      (r', c', [FSOp.statOp (base_filepath p) (fs.stat (base_filepath p)),
                FSOp.openOp (resolve_path fs p) true,
                FSOp.fstatOp (resolve_path fs p) (some sz),
                FSOp.mallocOp sz false, FSOp.closeOp]) ∧
      assembled r' = assembled res ++ http_response_bytes 500 (statusText 500)
        (strBytes "text/html")
        (strBytes "<h1>500 Internal Server Error</h1>" ++ [0]) ∧ Inv r' := by
  obtain ⟨r', c', heq, ha, hi⟩ := send_http_response_okg alloc (cnt + 1) res 500
    (strBytes "text/html") (cstr "<h1>500 Internal Server Error</h1>") 35 h hal
    (by decide) (by decide) (by decide) (by decide)
  rw [(by decide : (cstr "<h1>500 Internal Server Error</h1>").take 35 =
    strBytes "<h1>500 Internal Server Error</h1>" ++ [0])] at ha
  refine ⟨r', c', ?_, ha, hi⟩
  unfold serve_static_file
  rw [hsafe, if_neg (by decide : ¬ ((true : Bool) = false))]
  dsimp only
  rw [hopen, if_neg (by decide : ¬ ((true : Bool) = false))]
  rw [hfstat]
  dsimp only
  rw [hmal, if_pos rfl, heq]
  rfl

theorem serve_static_short_read (fs : FS) (cnt : Nat) (res : Response) (p : List Nat)
    (sz : Nat) (h : Inv res) (hsafe : is_safe_path p = true)
    (hopen : fs.openOk (resolve_path fs p) = true)
    (hfstat : fs.fstat (resolve_path fs p) = some sz)
    (hshort : ((fs.readBytes (resolve_path fs p)).take sz).length ≠ sz) :
    ∃ r' c', serve_static_file fs allocOk cnt p res =
      (r', c', [FSOp.statOp (base_filepath p) (fs.stat (base_filepath p)),
                FSOp.openOp (resolve_path fs p) true,
                FSOp.fstatOp (resolve_path fs p) (some sz),
                FSOp.mallocOp sz true,
                FSOp.readOp (resolve_path fs p) sz
                  ((fs.readBytes (resolve_path fs p)).take sz).length,
                FSOp.closeOp, FSOp.freeOp]) ∧
      assembled r' = assembled res ++ http_response_bytes 500 (statusText 500)
        (strBytes "text/html")
        (strBytes "<h1>500 Internal Server Error</h1>" ++ [0]) ∧ Inv r' := by
  obtain ⟨r', c', heq, ha, hi⟩ := send_http_response_ok (cnt + 1) res 500
    (strBytes "text/html") (cstr "<h1>500 Internal Server Error</h1>") 35 h (by decide)
    (by decide) (by decide) (by decide)
  rw [(by decide : (cstr "<h1>500 Internal Server Error</h1>").take 35 =
    strBytes "<h1>500 Internal Server Error</h1>" ++ [0])] at ha
  refine ⟨r', c', ?_, ha, hi⟩
  unfold serve_static_file
  rw [hsafe, if_neg (by decide : ¬ ((true : Bool) = false))]
  dsimp only
  rw [hopen, if_neg (by decide : ¬ ((true : Bool) = false))]
  rw [hfstat]
  dsimp only
  rw [if_neg (by simp [allocOk] : ¬ (allocOk cnt = false))]
  rw [if_pos hshort, heq]
  rfl

theorem serve_static_200 (fs : FS) (cnt : Nat) (res : Response) (p : List Nat)
    (sz : Nat) (h : Inv res) (hsafe : is_safe_path p = true)
    (hopen : fs.openOk (resolve_path fs p) = true)
    (hfstat : fs.fstat (resolve_path fs p) = some sz)
    (hread : ((fs.readBytes (resolve_path fs p)).take sz).length = sz)
    (hsz : sz < 10 ^ 1000) :
    ∃ r' c', serve_static_file fs allocOk cnt p res =
      (r', c', [FSOp.statOp (base_filepath p) (fs.stat (base_filepath p)),
                FSOp.openOp (resolve_path fs p) true,
                FSOp.fstatOp (resolve_path fs p) (some sz),
                FSOp.mallocOp sz true,
                FSOp.readOp (resolve_path fs p) sz sz,
                FSOp.closeOp, FSOp.freeOp]) ∧
      assembled r' = assembled res ++ http_response_bytes 200 (statusText 200)
        (get_mime_type (resolve_path fs p))
        ((fs.readBytes (resolve_path fs p)).take sz) ∧ Inv r' := by
  have hmime := get_mime_type_len_le (resolve_path fs p)
  have hdig : (natDecimal sz).length ≤ 1000 := natDecimal_len_le sz 1000 hsz (by omega)
  have hct : (strBytes "Content-Type: ").length = 14 := by decide
  have hcl : (strBytes "Content-Length: ").length = 16 := by decide
  have hcrlf : crlf.length = 2 := by decide
  obtain ⟨r', c', heq, ha, hi⟩ := send_http_response_ok (cnt + 1) res 200
    (get_mime_type (resolve_path fs p)) ((fs.readBytes (resolve_path fs p)).take sz) sz h
    (by decide)
    (by simp only [List.length_append, hct, hcrlf]; omega)
    (by simp only [List.length_append, hcl, hcrlf]; omega)
    (by omega)
  refine ⟨r', c', ?_, ?_, hi⟩
  · unfold serve_static_file
    rw [hsafe, if_neg (by decide : ¬ ((true : Bool) = false))]
    dsimp only
    rw [hopen, if_neg (by decide : ¬ ((true : Bool) = false))]
    rw [hfstat]
    dsimp only
    rw [if_neg (by simp [allocOk] : ¬ (allocOk cnt = false))]
    rw [if_neg (by rw [hread]; exact fun hh => hh rfl), hread, heq]
    rfl
  · rw [ha, List.take_take, min_self]

/-! ## Route table computations and `handle_request` case analysis -/

theorem routeScan_cons (alloc : Nat → Bool) (cnt : Nat) (path : List Nat) (res : Response)
    (rp : List Nat) (h : Handler) (rest : List (List Nat × Handler)) :
    routeScan alloc cnt path res ((rp, h) :: rest) =
      if path = rp then some (h alloc cnt res) else routeScan alloc cnt path res rest := rfl

theorem routeScan_nil (alloc : Nat → Bool) (cnt : Nat) (path : List Nat) (res : Response) :
    routeScan alloc cnt path res [] = none := rfl

theorem route_home (alloc : Nat → Bool) (cnt : Nat) (res : Response) :
    handle_dynamic_route alloc cnt (strBytes "/") res = some (handle_home alloc cnt res) := by
  unfold handle_dynamic_route routes
  rw [routeScan_cons, if_pos rfl]

theorem route_about (alloc : Nat → Bool) (cnt : Nat) (res : Response) :
    handle_dynamic_route alloc cnt (strBytes "/about") res =
      some (handle_about alloc cnt res) := by
  unfold handle_dynamic_route routes
  rw [routeScan_cons, if_neg (by decide), routeScan_cons, if_pos rfl]

theorem route_health (alloc : Nat → Bool) (cnt : Nat) (res : Response) :
    handle_dynamic_route alloc cnt (strBytes "/health") res =
      some (handle_health alloc cnt res) := by
  unfold handle_dynamic_route routes
  rw [routeScan_cons, if_neg (by decide), routeScan_cons, if_neg (by decide),
    routeScan_cons, if_pos rfl]

theorem route_none (alloc : Nat → Bool) (cnt : Nat) (path : List Nat) (res : Response)
    (h1 : path ≠ strBytes "/") (h2 : path ≠ strBytes "/about")
    (h3 : path ≠ strBytes "/health") :
    handle_dynamic_route alloc cnt path res = none := by
  unfold handle_dynamic_route routes
  rw [routeScan_cons, if_neg h1, routeScan_cons, if_neg h2, routeScan_cons, if_neg h3,
    routeScan_nil]

theorem handle_home_ok (cnt : Nat) (res : Response) (h : Inv res) :
    ∃ r' c', handle_home allocOk cnt res = (r', c') ∧
      assembled r' = assembled res ++ respHome ∧ Inv r' := by
  obtain ⟨r', c', heq, ha, hi⟩ := send_http_response_ok cnt res 200 (strBytes "text/html")
    (cstr "<h1>Welcome!</h1><p>Simple C HTTP Server</p>")
    (strBytes "<h1>Welcome!</h1><p>Simple C HTTP Server</p>").length h
    (by decide) (by decide) (by decide) (by decide)
  refine ⟨r', c', heq, ?_, hi⟩
  rw [ha, (by decide : (cstr "<h1>Welcome!</h1><p>Simple C HTTP Server</p>").take
    (strBytes "<h1>Welcome!</h1><p>Simple C HTTP Server</p>").length =
    strBytes "<h1>Welcome!</h1><p>Simple C HTTP Server</p>")]
  rfl

theorem handle_about_ok (cnt : Nat) (res : Response) (h : Inv res) :
    ∃ r' c', handle_about allocOk cnt res = (r', c') ∧
      assembled r' = assembled res ++ respAbout ∧ Inv r' := by
  obtain ⟨r', c', heq, ha, hi⟩ := send_http_response_ok cnt res 200 (strBytes "text/html")
    (cstr "<h1>About</h1><p>Multithreaded C Server with Static Files</p>")
    (strBytes "<h1>About</h1><p>Multithreaded C Server with Static Files</p>").length h
    (by decide) (by decide) (by decide) (by decide)
  refine ⟨r', c', heq, ?_, hi⟩
  rw [ha, (by decide :
    (cstr "<h1>About</h1><p>Multithreaded C Server with Static Files</p>").take
    (strBytes "<h1>About</h1><p>Multithreaded C Server with Static Files</p>").length =
    strBytes "<h1>About</h1><p>Multithreaded C Server with Static Files</p>")]
  rfl

theorem handle_health_ok (cnt : Nat) (res : Response) (h : Inv res) :
    ∃ r' c', handle_health allocOk cnt res = (r', c') ∧
      assembled r' = assembled res ++ respHealth ∧ Inv r' := by
  obtain ⟨r', c', heq, ha, hi⟩ := send_http_response_ok cnt res 200
    (strBytes "application/json")
    (cstr "\x7b\"status\":\"healthy\",\"threads\":\"enabled\"\x7d")
    (strBytes "\x7b\"status\":\"healthy\",\"threads\":\"enabled\"\x7d").length h
    (by decide) (by decide) (by decide) (by decide)
  refine ⟨r', c', heq, ?_, hi⟩
  rw [ha, (by decide :
    (cstr "\x7b\"status\":\"healthy\",\"threads\":\"enabled\"\x7d").take
    (strBytes "\x7b\"status\":\"healthy\",\"threads\":\"enabled\"\x7d").length =
    strBytes "\x7b\"status\":\"healthy\",\"threads\":\"enabled\"\x7d")]
  rfl

theorem handle_request_parse_fail (fs : FS) (raw : List Nat) (hne : raw ≠ [])
    (hparse : parse_request_line ((raw.take 8191).takeWhile (· ≠ 0)) = none) :
    handle_request fs allocOk raw = ([resp400], []) := by
  obtain ⟨r', c', heq, ha, _⟩ := send_http_response_ok 1 freshRes 400
    (strBytes "text/html") (cstr "<h1>400 Bad Request</h1>") 24 freshRes_inv
    (by decide) (by decide) (by decide) (by decide)
  unfold handle_request
  rw [if_neg hne]
  dsimp only
  rw [response_init_allocOk 0]
  dsimp only
  rw [hparse]
  dsimp only
  rw [heq]
  dsimp only
  rw [ha, assembled_freshRes,
    (by decide : (cstr "<h1>400 Bad Request</h1>").take 24 =
      strBytes "<h1>400 Bad Request</h1>")]
  rfl

theorem handle_request_405 (fs : FS) (raw m p q : List Nat) (hne : raw ≠ [])
    (hparse : parse_request_line ((raw.take 8191).takeWhile (· ≠ 0)) = some (m, p, q))
    (hm : m ≠ strBytes "GET") :
    handle_request fs allocOk raw = ([resp405], []) := by
  obtain ⟨r', c', heq, ha, _⟩ := send_http_response_ok 1 freshRes 405
    (strBytes "text/html") (cstr "<h1>405 Method Not Allowed</h1>") 32 freshRes_inv
    (by decide) (by decide) (by decide) (by decide)
  unfold handle_request
  rw [if_neg hne]
  dsimp only
  rw [response_init_allocOk 0]
  dsimp only
  rw [hparse]
  dsimp only
  rw [if_pos hm]
  rw [heq]
  dsimp only
  rw [ha, assembled_freshRes,
    (by decide : (cstr "<h1>405 Method Not Allowed</h1>").take 32 =
      strBytes "<h1>405 Method Not Allowed</h1>" ++ [0])]
  rfl

theorem handle_request_route_home (fs : FS) (raw q : List Nat) (hne : raw ≠ [])
    (hparse : parse_request_line ((raw.take 8191).takeWhile (· ≠ 0)) =
      some (strBytes "GET", strBytes "/", q)) :
    handle_request fs allocOk raw = ([respHome], []) := by
  obtain ⟨r', c', heq, ha, _⟩ := handle_home_ok 1 freshRes freshRes_inv
  unfold handle_request
  rw [if_neg hne]
  dsimp only
  rw [response_init_allocOk 0]
  dsimp only
  rw [hparse]
  dsimp only
  rw [if_neg (fun hh => hh rfl)]
  rw [route_home]
  dsimp only
  rw [heq]
  dsimp only
  rw [ha, assembled_freshRes]
  rfl

theorem handle_request_route_about (fs : FS) (raw q : List Nat) (hne : raw ≠ [])
    (hparse : parse_request_line ((raw.take 8191).takeWhile (· ≠ 0)) =
      some (strBytes "GET", strBytes "/about", q)) :
    handle_request fs allocOk raw = ([respAbout], []) := by
  obtain ⟨r', c', heq, ha, _⟩ := handle_about_ok 1 freshRes freshRes_inv
  unfold handle_request
  rw [if_neg hne]
  dsimp only
  rw [response_init_allocOk 0]
  dsimp only
  rw [hparse]
  dsimp only
  rw [if_neg (fun hh => hh rfl)]
  rw [route_about]
  dsimp only
  rw [heq]
  dsimp only
  rw [ha, assembled_freshRes]
  rfl

theorem handle_request_route_health (fs : FS) (raw q : List Nat) (hne : raw ≠ [])
    (hparse : parse_request_line ((raw.take 8191).takeWhile (· ≠ 0)) =
      some (strBytes "GET", strBytes "/health", q)) :
    handle_request fs allocOk raw = ([respHealth], []) := by
  obtain ⟨r', c', heq, ha, _⟩ := handle_health_ok 1 freshRes freshRes_inv
  unfold handle_request
  rw [if_neg hne]
  dsimp only
  rw [response_init_allocOk 0]
  dsimp only
  rw [hparse]
  dsimp only
  rw [if_neg (fun hh => hh rfl)]
  rw [route_health]
  dsimp only
  rw [heq]
  dsimp only
  rw [ha, assembled_freshRes]
  rfl

theorem handle_request_static (fs : FS) (raw p q : List Nat) (hne : raw ≠ [])
    (hparse : parse_request_line ((raw.take 8191).takeWhile (· ≠ 0)) =
      some (strBytes "GET", p, q))
    (h1 : p ≠ strBytes "/") (h2 : p ≠ strBytes "/about")
    (h3 : p ≠ strBytes "/health") :
    handle_request fs allocOk raw =
      ([assembled (serve_static_file fs allocOk 1 p freshRes).1],
       (serve_static_file fs allocOk 1 p freshRes).2.2) := by
  unfold handle_request
  rw [if_neg hne]
  dsimp only
  rw [response_init_allocOk 0]
  dsimp only
  rw [hparse]
  dsimp only
  rw [if_neg (fun hh => hh rfl)]
  rw [route_none allocOk 1 p freshRes h1 h2 h3]

/-- `response_printf` when the rendered text fits the scratch buffer and
the content fits the remaining capacity: no reallocation, counter
unchanged. -/
theorem response_printf_fit (alloc : Nat → Bool) (cnt : Nat) (r : Response)
    (s : List Nat) (hlen : s.length < 8192)
    (hfit : r.size + s.length + 1 ≤ r.capacity) :
    response_printf alloc cnt r s =
      (true, ⟨bufWrite r.data r.size s, r.size + s.length, r.capacity⟩, cnt) := by
  unfold response_printf
  rw [if_neg (by omega)]
  unfold response_append
  rw [if_neg (by omega)]

/-- Like `handle_request_static`, but for an arbitrary allocation oracle
whose first grant succeeds: the single written byte string is whatever
the static file resolver left in the buffer. -/
theorem handle_request_static_g (fs : FS) (alloc : Nat → Bool) (raw p q : List Nat)
    (hne : raw ≠ []) (h0 : alloc 0 = true)
    (hparse : parse_request_line ((raw.take 8191).takeWhile (· ≠ 0)) =
      some (strBytes "GET", p, q))
    (h1 : p ≠ strBytes "/") (h2 : p ≠ strBytes "/about")
    (h3 : p ≠ strBytes "/health") :
    (handle_request fs alloc raw).1 =
      [assembled (serve_static_file fs alloc 1 p freshRes).1] := by
  have hinit : response_init alloc 0 8192 = (some freshRes, 1) := by
    unfold response_init
    rw [if_pos h0]
    rfl
  unfold handle_request
  rw [if_neg hne]
  dsimp only
  rw [hinit]
  dsimp only
  rw [hparse]
  dsimp only
  rw [if_neg (fun hh => hh rfl)]
  rw [route_none alloc 1 p freshRes h1 h2 h3]

/-- Whenever the initial read delivered bytes and the initial buffer
allocation succeeds, `handle_request` performs exactly one `write`,
whatever happens afterwards (including response-growth allocation
failures): no branch after a successful `response_init` aborts. -/
theorem handle_request_one_write (fs : FS) (alloc : Nat → Bool) (raw : List Nat)
    (hne : raw ≠ []) (h0 : alloc 0 = true) :
    ∃ w ops, handle_request fs alloc raw = ([w], ops) := by
  have hinit : response_init alloc 0 8192 = (some freshRes, 1) := by
    unfold response_init
    rw [if_pos h0]
    rfl
  unfold handle_request
  rw [if_neg hne]
  dsimp only
  rw [hinit]
  dsimp only
  rcases hp : parse_request_line ((raw.take 8191).takeWhile (· ≠ 0)) with _ | ⟨m, p, q⟩
  · exact ⟨_, _, rfl⟩
  · dsimp only
    by_cases hm : m ≠ strBytes "GET"
    · rw [if_pos hm]
      exact ⟨_, _, rfl⟩
    · rw [if_neg hm]
      rcases hr : handle_dynamic_route alloc 1 p freshRes with _ | rr
      · exact ⟨_, _, rfl⟩
      · exact ⟨_, _, rfl⟩

/-! ## Reachable buffer states -/

theorem response_init_inv (alloc : Nat → Bool) (cnt cap : Nat) (r : Response)
    (cnt' : Nat) (hcap : 1 ≤ cap) (h : response_init alloc cnt cap = (some r, cnt')) :
    Inv r := by
  by_cases h0 : alloc cnt
  · rw [response_init, if_pos h0] at h
    obtain ⟨h1, _⟩ := Prod.mk.injEq .. ▸ h
    obtain rfl := Option.some.injEq .. ▸ h1.symm
    refine ⟨?_, ?_, ?_⟩
    · simp only [List.length_set, List.length_replicate]
    · simpa using hcap
    · show ((List.replicate cap junk).set 0 0)[(0 : Nat)]? = some 0
      rw [List.getElem?_set_eq_of_lt]
      simp only [List.length_replicate]
      omega
  · rw [response_init, if_neg h0] at h
    exact absurd ((Prod.mk.injEq .. ▸ h).1) (by simp)

/-- A failed append leaves the buffer untouched. -/
theorem response_append_fail (alloc : Nat → Bool) (cnt : Nat) (r : Response)
    (d : List Nat) (hgrow : r.capacity < r.size + d.length + 1)
    (ha : alloc cnt = false) :
    response_append alloc cnt r d = (false, r, cnt + 1) := by
  rw [response_append, if_pos (by omega)]
  dsimp only
  rw [ha]
  rfl

theorem response_append_inv (alloc : Nat → Bool) (cnt : Nat) (r : Response)
    (d : List Nat) (ok : Bool) (r' : Response) (cnt' : Nat) (h : Inv r)
    (heq : response_append alloc cnt r d = (ok, r', cnt')) :
    Inv r' ∧ r.capacity ≤ r'.capacity ∧
      (ok = true → r.capacity < r.size + d.length → 2 * r.capacity ≤ r'.capacity) := by
  by_cases hgrow : r.capacity < r.size + d.length + 1
  · by_cases ha : alloc cnt = true
    · obtain ⟨r'', c'', heq', _, hI, hmono, _, hdbl, _⟩ :=
        response_append_ok alloc cnt r d h (fun _ => ha)
      rw [heq'] at heq
      obtain ⟨_, h2⟩ := Prod.mk.injEq .. ▸ heq
      obtain ⟨h2a, _⟩ := Prod.mk.injEq .. ▸ h2
      subst h2a
      exact ⟨hI, hmono, fun _ hx => hdbl (by omega)⟩
    · rw [response_append_fail alloc cnt r d hgrow (by simpa using ha)] at heq
      obtain ⟨hok, h2⟩ := Prod.mk.injEq .. ▸ heq
      obtain ⟨h2a, _⟩ := Prod.mk.injEq .. ▸ h2
      subst h2a
      exact ⟨h, le_refl _, fun hx _ => absurd hok.symm (by simp [hx])⟩
  · obtain ⟨r'', c'', heq', _, hI, hmono, _, _, _⟩ :=
      response_append_ok alloc cnt r d h (fun hx => absurd hx (by omega))
    rw [heq'] at heq
    obtain ⟨_, h2⟩ := Prod.mk.injEq .. ▸ heq
    obtain ⟨h2a, _⟩ := Prod.mk.injEq .. ▸ h2
    subst h2a
    exact ⟨hI, hmono, fun _ hx => absurd hx (by omega)⟩

theorem reach_inv (alloc : Nat → Bool) (r : Response) (cnt : Nat)
    (h : Reach alloc r cnt) : Inv r := by
  induction h with
  | init cap r cnt' hcap hinit => exact response_init_inv alloc 0 cap r cnt' hcap hinit
  | step r cnt d ok r' cnt' _ heq ih =>
    exact (response_append_inv alloc cnt r d ok r' cnt' ih heq).1

/-! ## `strchr` facts -/

theorem firstIdx_none_iff (c : Nat) (l : List Nat) : firstIdx c l = none ↔ c ∉ l := by
  induction l with
  | nil => simp [firstIdx]
  | cons x xs ih =>
    by_cases hx : x = c
    · simp [firstIdx, hx]
    · simp only [firstIdx, if_neg hx, Option.map_eq_none', List.mem_cons, ih]
      constructor
      · intro h hmem
        rcases hmem with h1 | h2
        · exact hx h1.symm
        · exact h h2
      · intro h hmem
        exact h (Or.inr hmem)

theorem firstIdx_lt_length (c : Nat) (l : List Nat) (i : Nat)
    (h : firstIdx c l = some i) : i < l.length := by
  induction l generalizing i with
  | nil => simp [firstIdx] at h
  | cons x xs ih =>
    by_cases hx : x = c
    · simp only [firstIdx, if_pos hx, Option.some.injEq] at h
      simp [← h]
    · simp only [firstIdx, if_neg hx, Option.map_eq_some'] at h
      obtain ⟨j, hj, rfl⟩ := h
      have := ih j hj
      simp only [List.length_cons]
      omega

theorem firstIdx_take (c : Nat) (l : List Nat) (i : Nat) (h : firstIdx c l = some i) :
    l.takeWhile (· ≠ c) = l.take i := by
  induction l generalizing i with
  | nil => simp [firstIdx] at h
  | cons x xs ih =>
    by_cases hx : x = c
    · simp only [firstIdx, if_pos hx, Option.some.injEq] at h
      simp [← h, List.takeWhile_cons, hx]
    · simp only [firstIdx, if_neg hx, Option.map_eq_some'] at h
      obtain ⟨j, hj, rfl⟩ := h
      rw [List.takeWhile_cons, if_pos (by simp [hx]), List.take_succ_cons, ih j hj]

theorem firstIdx_len_takeWhile (c : Nat) (l : List Nat) (i : Nat)
    (h : firstIdx c l = some i) : (l.takeWhile (· ≠ c)).length = i := by
  rw [firstIdx_take c l i h]
  exact List.length_take_of_le (le_of_lt (firstIdx_lt_length c l i h))

theorem firstIdx_drop (c : Nat) (l : List Nat) (i : Nat) (h : firstIdx c l = some i) :
    l.drop (i + 1) = (l.dropWhile (· ≠ c)).drop 1 := by
  induction l generalizing i with
  | nil => simp [firstIdx] at h
  | cons x xs ih =>
    by_cases hx : x = c
    · simp only [firstIdx, if_pos hx, Option.some.injEq] at h
      simp [← h, List.dropWhile_cons, hx]
    · simp only [firstIdx, if_neg hx, Option.map_eq_some'] at h
      obtain ⟨j, hj, rfl⟩ := h
      rw [List.dropWhile_cons, if_pos (by simp [hx]), List.drop_succ_cons, ih j hj]

/-! ## Claims -/

/-- C8: for every sequence of init and append operations on a response
buffer (under any allocation oracle), after each operation the logical
size never exceeds the capacity, the backing block has exactly
`capacity` bytes with the content contiguous in it and null-terminated
at index `size`; and across any append step from a reachable state the
capacity never decreases, and at least doubles whenever the appended
data would make the content exceed the capacity and the append
succeeds. -/
theorem c8_response_buffer_invariants (alloc : Nat → Bool) :
    (∀ r cnt, Reach alloc r cnt →
      r.size ≤ r.capacity ∧ r.data.length = r.capacity ∧ r.data[r.size]? = some 0) ∧
    (∀ r cnt d ok r' cnt', Reach alloc r cnt →
      response_append alloc cnt r d = (ok, r', cnt') →
      r.capacity ≤ r'.capacity ∧
      (ok = true → r.capacity < r.size + d.length → 2 * r.capacity ≤ r'.capacity)) := by
  constructor
  · intro r cnt h
    obtain ⟨h1, h2, h3⟩ := reach_inv alloc r cnt h
    exact ⟨by omega, h1, h3⟩
  · intro r cnt d ok r' cnt' h heq
    exact (response_append_inv alloc cnt r d ok r' cnt'
      (reach_inv alloc r cnt h) heq).2

/-- C4: `parse_request_line` on any NUL-free raw byte string errors iff
there is no space, or the text before the first space (the method) is 16
bytes or longer, or there is no second space, or the text between the
two spaces (the URI) is 512 bytes or longer.  On success it returns the
text before the first space as the method and splits the URI at its
first '?' into path and raw query string (no '?' yields an empty query
string); the path is the URI's bytes unchanged up to the '?' — no
percent-decoding is applied. -/
theorem c4_parse_request_line (raw : List Nat) (h0 : (0 : Nat) ∉ raw) :
    (parse_request_line raw = none ↔
      32 ∉ raw ∨ 16 ≤ (raw.takeWhile (· ≠ 32)).length ∨
      32 ∉ ((raw.dropWhile (· ≠ 32)).drop 1) ∨
      512 ≤ ((((raw.dropWhile (· ≠ 32)).drop 1)).takeWhile (· ≠ 32)).length) ∧
    (∀ m p q, parse_request_line raw = some (m, p, q) →
      m = raw.takeWhile (· ≠ 32) ∧
      p = ((((raw.dropWhile (· ≠ 32)).drop 1)).takeWhile (· ≠ 32)).takeWhile (· ≠ 63) ∧
      q = (((((raw.dropWhile (· ≠ 32)).drop 1)).takeWhile (· ≠ 32)).dropWhile
            (· ≠ 63)).drop 1) := by
  have hreq : raw.takeWhile (· ≠ 0) = raw := by
    rw [List.takeWhile_eq_self_iff]
    intro x hx
    simp only [decide_eq_true_eq]
    intro hx0
    exact h0 (hx0 ▸ hx)
  rcases hf1 : firstIdx 32 raw with _ | i1
  · have h32 : 32 ∉ raw := (firstIdx_none_iff 32 raw).mp hf1
    have hE : parse_request_line raw = none := by
      unfold parse_request_line
      rw [hreq]
      dsimp only
      rw [hf1]
    refine ⟨⟨fun _ => Or.inl h32, fun _ => hE⟩, fun m p q h => absurd (hE ▸ h) (by simp)⟩
  · have h32 : 32 ∈ raw := by
      by_contra hmem
      rw [(firstIdx_none_iff 32 raw).mpr hmem] at hf1
      cases hf1
    have hm := firstIdx_take 32 raw i1 hf1
    have hml := firstIdx_len_takeWhile 32 raw i1 hf1
    have hrest := firstIdx_drop 32 raw i1 hf1
    by_cases h16 : 16 ≤ i1
    · have hE : parse_request_line raw = none := by
        unfold parse_request_line
        rw [hreq]
        dsimp only
        rw [hf1]
        dsimp only
        rw [if_pos h16]
      refine ⟨⟨fun _ => Or.inr (Or.inl (by omega)), fun _ => hE⟩,
        fun m p q h => absurd (hE ▸ h) (by simp)⟩
    · rcases hf2 : firstIdx 32 (raw.drop (i1 + 1)) with _ | i2
      · have hno2 : 32 ∉ ((raw.dropWhile (· ≠ 32)).drop 1) := by
          rw [← hrest]
          exact (firstIdx_none_iff 32 _).mp hf2
        have hE : parse_request_line raw = none := by
          unfold parse_request_line
          rw [hreq]
          dsimp only
          rw [hf1]
          dsimp only
          rw [if_neg h16]
          rw [hf2]
        refine ⟨⟨fun _ => Or.inr (Or.inr (Or.inl hno2)), fun _ => hE⟩,
          fun m p q h => absurd (hE ▸ h) (by simp)⟩
      · have h322 : 32 ∈ raw.drop (i1 + 1) := by
          by_contra hmem
          rw [(firstIdx_none_iff 32 _).mpr hmem] at hf2
          cases hf2
        have huri := firstIdx_take 32 (raw.drop (i1 + 1)) i2 hf2
        have hurl := firstIdx_len_takeWhile 32 (raw.drop (i1 + 1)) i2 hf2
        have hi2len := firstIdx_lt_length 32 (raw.drop (i1 + 1)) i2 hf2
        by_cases h512 : 512 ≤ i2
        · have hE : parse_request_line raw = none := by
            unfold parse_request_line
            rw [hreq]
            dsimp only
            rw [hf1]
            dsimp only
            rw [if_neg h16]
            rw [hf2]
            dsimp only
            rw [if_pos h512]
          refine ⟨⟨fun _ => Or.inr (Or.inr (Or.inr ?_)), fun _ => hE⟩,
            fun m p q h => absurd (hE ▸ h) (by simp)⟩
          rw [← hrest, hurl]
          exact h512
        · -- success: the URI is `(raw.drop (i1+1)).take i2`
          have hulen : ((raw.drop (i1 + 1)).take i2).length = i2 :=
            List.length_take_of_le (le_of_lt hi2len)
          rcases hf3 : firstIdx 63 ((raw.drop (i1 + 1)).take i2) with _ | qd
          · have h63 : (63 : Nat) ∉ (raw.drop (i1 + 1)).take i2 :=
              (firstIdx_none_iff 63 _).mp hf3
            have hE : parse_request_line raw =
                some (raw.take i1, ((raw.drop (i1 + 1)).take i2).take 511, []) := by
              unfold parse_request_line
              rw [hreq]
              dsimp only
              rw [hf1]
              dsimp only
              rw [if_neg h16]
              rw [hf2]
              dsimp only
              rw [if_neg h512]
              rw [hf3]
            refine ⟨⟨fun hc => absurd (hE ▸ hc) (by simp), ?_⟩, ?_⟩
            · rintro (hc | hc | hc | hc)
              · exact absurd h32 hc
              · omega
              · rw [← hrest] at hc
                exact absurd h322 hc
              · rw [← hrest, hurl] at hc
                omega
            · intro m p q h
              rw [hE] at h
              obtain ⟨rfl, rfl, rfl⟩ := Prod.mk.injEq .. ▸ (Option.some.injEq .. ▸ h).symm
              have hall : ∀ x ∈ (raw.drop (i1 + 1)).take i2, decide (x ≠ 63) = true := by
                intro x hx
                simp only [decide_eq_true_eq]
                intro hx63
                exact h63 (hx63 ▸ hx)
              refine ⟨hm.symm, ?_, ?_⟩
              · rw [← hrest, huri]
                rw [List.take_of_length_le (by rw [hulen]; omega)]
                rw [List.takeWhile_eq_self_iff.mpr hall]
              · rw [← hrest, huri]
                rw [List.dropWhile_eq_nil_iff.mpr hall]
                rfl
          · have huq := firstIdx_take 63 _ qd hf3
            have huql := firstIdx_len_takeWhile 63 _ qd hf3
            have hqlt := firstIdx_lt_length 63 _ qd hf3
            have hurest := firstIdx_drop 63 _ qd hf3
            have hE : parse_request_line raw =
                some (raw.take i1,
                  (((raw.drop (i1 + 1)).take i2).take qd).take 511,
                  (((raw.drop (i1 + 1)).take i2).drop (qd + 1)).take 511) := by
              unfold parse_request_line
              rw [hreq]
              dsimp only
              rw [hf1]
              dsimp only
              rw [if_neg h16]
              rw [hf2]
              dsimp only
              rw [if_neg h512]
              rw [hf3]
            refine ⟨⟨fun hc => absurd (hE ▸ hc) (by simp), ?_⟩, ?_⟩
            · rintro (hc | hc | hc | hc)
              · exact absurd h32 hc
              · omega
              · rw [← hrest] at hc
                exact absurd h322 hc
              · rw [← hrest, hurl] at hc
                omega
            · intro m p q h
              rw [hE] at h
              obtain ⟨rfl, rfl, rfl⟩ := Prod.mk.injEq .. ▸ (Option.some.injEq .. ▸ h).symm
              rw [hulen] at hqlt
              refine ⟨hm.symm, ?_, ?_⟩
              · rw [← hrest, huri, huq]
                rw [List.take_take]
                congr 1
                omega
              · rw [← hrest, huri, ← hurest]
                rw [List.take_of_length_le]
                rw [List.length_drop, hulen]
                omega

/-- Witness for C4, at the request line "GET /a?b=1 HTTP/1.1": parsing
succeeds (the error disjunction is refuted through the theorem). -/
theorem c4_parse_request_line_witness :
    parse_request_line (strBytes "GET /a?b=1 HTTP/1.1") ≠ none := by
  intro hnone
  have h := (c4_parse_request_line (strBytes "GET /a?b=1 HTTP/1.1") (by decide)).1
  have := h.mp hnone
  revert this
  decide

/-! ## query decoding facts -/

theorem hexVal_lt (a : Nat) (h : isHexDigit a = true) : hexVal a < 16 := by
  simp only [isHexDigit, Bool.or_eq_true, Bool.and_eq_true, decide_eq_true_eq] at h
  unfold hexVal
  split
  · omega
  · split <;> omega

theorem isHexDigit_ne_zero (a : Nat) (h : isHexDigit a = true) : a ≠ 0 := by
  simp only [isHexDigit, Bool.or_eq_true, Bool.and_eq_true, decide_eq_true_eq] at h
  omega

theorem strtol2_hex (a b : Nat) (ha : isHexDigit a = true) (hb : isHexDigit b = true) :
    strtol2 a b = (((16 * hexVal a + hexVal b : Nat) : Int), 2) := by
  unfold strtol2
  rw [if_pos (by rw [ha, hb]; rfl)]

theorem strtolByte_hex (a b : Nat) (ha : isHexDigit a = true) (hb : isHexDigit b = true) :
    strtolByte a b = 16 * hexVal a + hexVal b := by
  have h1 := hexVal_lt a ha
  have h2 := hexVal_lt b hb
  unfold strtolByte
  rw [strtol2_hex a b ha hb]
  dsimp only
  omega

theorem strtol2_plus_space (a b : Nat) (hsgn : a = 43 ∨ isSpaceByte a = true)
    (hb : isHexDigit b = true) : strtol2 a b = (((hexVal b : Nat) : Int), 2) := by
  have hnh : isHexDigit a = false := by
    rcases hsgn with rfl | hsp
    · rfl
    · simp only [isSpaceByte, Bool.or_eq_true, Bool.and_eq_true, decide_eq_true_eq] at hsp
      simp only [isHexDigit, Bool.or_eq_true, Bool.and_eq_true, decide_eq_true_eq,
        Bool.eq_false_iff]
      intro hcon
      simp only [ne_eq, Bool.or_eq_true, Bool.and_eq_true, decide_eq_true_eq] at hcon
      omega
  unfold strtol2
  rw [if_neg (by rw [hnh]; simp), if_neg (by rw [hnh]; simp)]
  rw [if_pos ?_]
  rcases hsgn with rfl | hsp
  · rw [hb]
    rfl
  · rw [hsp, hb]
    simp

theorem strtolByte_plus_space (a b : Nat) (hsgn : a = 43 ∨ isSpaceByte a = true)
    (hb : isHexDigit b = true) : strtolByte a b = hexVal b := by
  have h2 := hexVal_lt b hb
  unfold strtolByte
  rw [strtol2_plus_space a b hsgn hb]
  dsimp only
  omega

theorem strtol2_minus (b : Nat) (hb : isHexDigit b = true) :
    strtol2 45 b = (-((hexVal b : Nat) : Int), 2) := by
  unfold strtol2
  rw [if_neg (by simp [isHexDigit]), if_neg (by simp [isHexDigit]),
    if_neg (by simp [isSpaceByte]), if_pos (by rw [hb]; simp)]

theorem strtolByte_minus (b : Nat) (hb : isHexDigit b = true) :
    strtolByte 45 b = (256 - hexVal b) % 256 := by
  have h2 := hexVal_lt b hb
  unfold strtolByte
  rw [strtol2_minus b hb]
  dsimp only
  omega

/-! Branch equations of the `url_decode` loop. -/

theorem url_decode_go_stop (c : Nat) (rest : List Nat) (i dsz : Nat)
    (h : c = 0 ∨ ¬ i < dsz - 1) : url_decode_go (c :: rest) i dsz = [] := by
  rw [url_decode_go.eq_def]
  dsimp only
  rw [if_pos h]

theorem url_decode_go_pct_ok (s1 s2 : Nat) (rest3 : List Nat) (i dsz : Nat)
    (hgo : i < dsz - 1) (h : s1 ≠ 0 ∧ s2 ≠ 0 ∧ (strtol2 s1 s2).2 = 2) :
    url_decode_go (37 :: s1 :: s2 :: rest3) i dsz =
      strtolByte s1 s2 :: url_decode_go rest3 (i + 1) dsz := by
  rw [url_decode_go.eq_def]
  dsimp only
  rw [if_neg (by rintro (hc | hc) <;> omega), if_pos h, if_pos rfl]

theorem url_decode_go_pct_bad (s1 s2 : Nat) (rest3 : List Nat) (i dsz : Nat)
    (hgo : i < dsz - 1) (h : ¬ (s1 ≠ 0 ∧ s2 ≠ 0 ∧ (strtol2 s1 s2).2 = 2)) :
    url_decode_go (37 :: s1 :: s2 :: rest3) i dsz =
      37 :: url_decode_go (s1 :: s2 :: rest3) (i + 1) dsz := by
  rw [url_decode_go.eq_def]
  dsimp only
  rw [if_neg (by rintro (hc | hc) <;> omega), if_neg h, if_pos rfl]

theorem url_decode_go_pct_nil (i dsz : Nat) (hgo : i < dsz - 1) :
    url_decode_go [37] i dsz = 37 :: url_decode_go [] (i + 1) dsz := by
  rw [url_decode_go.eq_def]
  dsimp only
  rw [if_neg (by rintro (hc | hc) <;> omega), if_pos rfl]

theorem url_decode_go_pct_one (s1 : Nat) (i dsz : Nat) (hgo : i < dsz - 1) :
    url_decode_go [37, s1] i dsz = 37 :: url_decode_go [s1] (i + 1) dsz := by
  rw [url_decode_go.eq_def]
  dsimp only
  rw [if_neg (by rintro (hc | hc) <;> omega), if_pos rfl]

theorem url_decode_go_plus (rest : List Nat) (i dsz : Nat) (hgo : i < dsz - 1) :
    url_decode_go (43 :: rest) i dsz = 32 :: url_decode_go rest (i + 1) dsz := by
  rw [url_decode_go.eq_def]
  dsimp only
  rw [if_neg (by rintro (hc | hc) <;> omega), if_neg (by omega), if_pos rfl]

theorem url_decode_go_other (c : Nat) (rest : List Nat) (i dsz : Nat)
    (hgo : i < dsz - 1) (h0 : c ≠ 0) (h37 : c ≠ 37) (h43 : c ≠ 43) :
    url_decode_go (c :: rest) i dsz = c :: url_decode_go rest (i + 1) dsz := by
  rw [url_decode_go.eq_def]
  dsimp only
  rw [if_neg (by rintro (hc | hc) <;> omega), if_neg h37, if_neg h43]

theorem url_decode_go_len (src : List Nat) (i dsz : Nat) :
    (url_decode_go src i dsz).length ≤ dsz - 1 - i := by
  induction src, i, dsz using url_decode_go.induct with
  | case1 i dsz => simp [url_decode_go]
  | case2 c rest i dsz hstop =>
    rw [url_decode_go_stop c rest i dsz hstop]
    simp
  | case3 i dsz s1 s2 rest3 hcond hguard ih =>
    push_neg at hguard
    rw [url_decode_go_pct_ok s1 s2 rest3 i dsz (by omega) hcond]
    simp only [List.length_cons]
    omega
  | case4 i dsz s1 s2 rest3 hcond hguard ih =>
    push_neg at hguard
    rw [url_decode_go_pct_bad s1 s2 rest3 i dsz (by omega) hcond]
    simp only [List.length_cons]
    omega
  | case5 i dsz hguard ih =>
    push_neg at hguard
    rw [url_decode_go_pct_nil i dsz (by omega)]
    simp only [List.length_cons]
    omega
  | case6 i dsz s1 hguard ih =>
    push_neg at hguard
    rw [url_decode_go_pct_one s1 i dsz (by omega)]
    simp only [List.length_cons]
    omega
  | case7 rest i dsz hguard hne ih =>
    push_neg at hguard
    rw [url_decode_go_plus rest i dsz (by omega)]
    simp only [List.length_cons]
    omega
  | case8 c rest i dsz hguard h37 h43 ih =>
    push_neg at hguard
    rw [url_decode_go_other c rest i dsz (by omega) (by omega) h37 h43]
    simp only [List.length_cons]
    omega

theorem pqsLoop_eq (toks : List (List Nat)) (cnt : Nat) (h : cnt ≤ 32) :
    pqsLoop toks cnt = (toks.filterMap pairOfToken).take (32 - cnt) := by
  induction toks generalizing cnt with
  | nil => simp [pqsLoop]
  | cons t rest ih =>
    by_cases hc : cnt < 32
    · rcases hp : pairOfToken t with _ | kv
      · rw [pqsLoop, if_pos hc, hp]
        dsimp only
        rw [List.filterMap_cons, hp]
        exact ih cnt h
      · rw [pqsLoop, if_pos hc, hp]
        dsimp only
        rw [List.filterMap_cons, hp]
        dsimp only
        rw [ih (cnt + 1) (by omega)]
        have h32 : 32 - cnt = (32 - (cnt + 1)) + 1 := by omega
        rw [h32, List.take_succ_cons]
    · have hc32 : cnt = 32 := by omega
      rw [pqsLoop, if_neg hc, hc32]
      simp

/-- C5 counterexample: the claim says a `%XX` triplet whose two bytes
are not both valid hex digits is copied through literally, but on
"%+5" (bytes 37, 43, 53) `url_decode` produces the single byte 5 —
`strtol` accepts the sign character, so the triplet is decoded, not
copied ('+' is not a hex digit; a literal copy would begin with '%'). -/
theorem c5_url_decode_counterexample :
    url_decode [37, 43, 53] 256 = [5] ∧ isHexDigit 43 = false ∧
    url_decode [37, 43, 53] 256 ≠ [37, 32, 53] ∧
    url_decode [37, 43, 53] 256 ≠ [37, 43, 53] := by decide

/-- C5 (amended): `parse_query_string` splits on '&' (`strtok`-style,
empty segments vanish), splits each segment at its first '=' (segments
without '=' are dropped without affecting other pairs), decodes key and
value with `url_decode` into 256-byte fields, and stops at 32 pairs;
`url_decode` maps a `%XX` triplet to a byte exactly when `strtol`
consumes both characters — two hex digits (value `16*h1+h2`), or a '+'
or white-space byte followed by one hex digit (value `h2`), or '-'
followed by one hex digit (low byte of the negated value); any other
triplet has its '%' copied and scanning resumes at the next byte; '+'
maps to space; other bytes pass through; output stops one byte short of
the destination size.  "x=1&y=two%20words" parses to exactly
("x","1"), ("y","two words"). -/
theorem c5_query_parsing_amended :
    (∀ a b rest, isHexDigit a = true → isHexDigit b = true →
      url_decode (37 :: a :: b :: rest) 256 =
        (16 * hexVal a + hexVal b) :: url_decode_go rest 1 256) ∧
    (∀ a b rest, (a = 43 ∨ isSpaceByte a = true) → isHexDigit b = true →
      url_decode (37 :: a :: b :: rest) 256 = hexVal b :: url_decode_go rest 1 256) ∧
    (∀ b rest, isHexDigit b = true →
      url_decode (37 :: 45 :: b :: rest) 256 =
        ((256 - hexVal b) % 256) :: url_decode_go rest 1 256) ∧
    (∀ a b rest, a ≠ 0 → b ≠ 0 → (strtol2 a b).2 ≠ 2 →
      url_decode (37 :: a :: b :: rest) 256 =
        37 :: url_decode_go (a :: b :: rest) 1 256) ∧
    (∀ rest, url_decode (43 :: rest) 256 = 32 :: url_decode_go rest 1 256) ∧
    (∀ c rest, c ≠ 0 → c ≠ 37 → c ≠ 43 →
      url_decode (c :: rest) 256 = c :: url_decode_go rest 1 256) ∧
    (∀ src dsz, (url_decode src dsz).length ≤ dsz - 1) ∧
    (∀ q, parse_query_string q =
      ((ampTokens ((q.takeWhile (· ≠ 0)).take 8191)).filterMap pairOfToken).take 32) ∧
    parse_query_string (strBytes "x=1&y=two%20words") =
      [(strBytes "x", strBytes "1"), (strBytes "y", strBytes "two words")] := by
  refine ⟨?_, ?_, ?_, ?_, ?_, ?_, ?_, ?_, by decide⟩
  · intro a b rest ha hb
    unfold url_decode
    rw [url_decode_go_pct_ok a b rest 0 256 (by decide)
      ⟨isHexDigit_ne_zero a ha, isHexDigit_ne_zero b hb, by rw [strtol2_hex a b ha hb]⟩]
    rw [strtolByte_hex a b ha hb]
  · intro a b rest hsgn hb
    have ha0 : a ≠ 0 := by
      rcases hsgn with rfl | hsp
      · omega
      · simp only [isSpaceByte, Bool.or_eq_true, Bool.and_eq_true, decide_eq_true_eq] at hsp
        omega
    unfold url_decode
    rw [url_decode_go_pct_ok a b rest 0 256 (by decide)
      ⟨ha0, isHexDigit_ne_zero b hb, by rw [strtol2_plus_space a b hsgn hb]⟩]
    rw [strtolByte_plus_space a b hsgn hb]
  · intro b rest hb
    unfold url_decode
    rw [url_decode_go_pct_ok 45 b rest 0 256 (by decide)
      ⟨by omega, isHexDigit_ne_zero b hb, by rw [strtol2_minus b hb]⟩]
    rw [strtolByte_minus b hb]
  · intro a b rest ha0 hb0 h2
    unfold url_decode
    rw [url_decode_go_pct_bad a b rest 0 256 (by decide) (fun hcon => h2 hcon.2.2)]
  · intro rest
    unfold url_decode
    rw [url_decode_go_plus rest 0 256 (by decide)]
  · intro c rest h0 h37 h43
    unfold url_decode
    rw [url_decode_go_other c rest 0 256 (by decide) h0 h37 h43]
  · intro src dsz
    unfold url_decode
    simpa using url_decode_go_len src 0 dsz
  · intro q
    unfold parse_query_string
    rw [pqsLoop_eq _ 0 (by omega)]

/-- Witness for C5 (amended), decoding "%20" through the theorem. -/
theorem c5_query_parsing_amended_witness :
    url_decode [37, 50, 48] 256 = (16 * hexVal 50 + hexVal 48) :: url_decode_go [] 1 256 :=
  c5_query_parsing_amended.1 50 48 [] (by decide) (by decide)

/-! ## `strrchr` and MIME-table facts -/

theorem lastIdx_none_iff (c : Nat) (l : List Nat) : lastIdx c l = none ↔ c ∉ l := by
  induction l with
  | nil => simp [lastIdx]
  | cons x xs ih =>
    rcases hx : lastIdx c xs with _ | k
    · rw [lastIdx, hx]
      dsimp only
      by_cases hxc : x = c
      · subst hxc
        simp
      · have hnx : c ∉ xs := ih.mp hx
        simp only [if_neg hxc, List.mem_cons]
        constructor
        · rintro _ (hcx | hin)
          · exact hxc hcx.symm
          · exact hnx hin
        · intro _
          trivial
    · rw [lastIdx, hx]
      dsimp only
      have hmem : c ∈ xs := by
        by_contra hmem
        rw [ih.mpr hmem] at hx
        cases hx
      simp [hmem]

theorem lastIdx_getElem (c : Nat) (l : List Nat) (i : Nat) (h : lastIdx c l = some i) :
    l[i]? = some c ∧ ∀ j, i < j → l[j]? ≠ some c := by
  induction l generalizing i with
  | nil => simp [lastIdx] at h
  | cons x xs ih =>
    rcases hx : lastIdx c xs with _ | k
    · rw [lastIdx, hx] at h
      dsimp only at h
      by_cases hxc : x = c
      · rw [if_pos hxc] at h
        injection h with h
        subst h
        have hnotin : c ∉ xs := (lastIdx_none_iff c xs).mp hx
        refine ⟨by simp [hxc], ?_⟩
        intro j hj hcon
        obtain ⟨j', rfl⟩ : ∃ j', j = j' + 1 := ⟨j - 1, by omega⟩
        rw [List.getElem?_cons_succ] at hcon
        exact hnotin (List.getElem?_mem hcon)
      · rw [if_neg hxc] at h
        cases h
    · rw [lastIdx, hx] at h
      dsimp only at h
      injection h with h
      subst h
      obtain ⟨h1, h2⟩ := ih k hx
      refine ⟨by simpa using h1, ?_⟩
      intro j hj hcon
      obtain ⟨j', rfl⟩ : ∃ j', j = j' + 1 := ⟨j - 1, by omega⟩
      rw [List.getElem?_cons_succ] at hcon
      exact h2 j' (by omega) hcon

theorem lastIdx_isSome_of_mem (c : Nat) (l : List Nat) (h : c ∈ l) :
    ∃ k, lastIdx c l = some k := by
  rcases hx : lastIdx c l with _ | k
  · exact absurd ((lastIdx_none_iff c l).mp hx) (by simp [h])
  · exact ⟨k, rfl⟩

theorem lastIdx_append_some (c : Nat) (xs ys : List Nat) (k : Nat)
    (h : lastIdx c ys = some k) : lastIdx c (xs ++ ys) = some (xs.length + k) := by
  induction xs with
  | nil => simpa using h
  | cons x xs ih =>
    rw [List.cons_append, lastIdx, ih]
    simp only [List.length_cons]
    congr 1
    omega

theorem mimeScan_eq_find (tbl : List (List Nat × List Nat)) (e : List Nat) :
    mimeScan tbl e = ((tbl.find? (fun q => strcaseEq e q.1)).map Prod.snd).getD
      (strBytes "application/octet-stream") := by
  induction tbl with
  | nil => simp [mimeScan]
  | cons hd tl ih =>
    obtain ⟨ext, mt⟩ := hd
    by_cases hm : strcaseEq e ext
    · rw [mimeScan, if_pos hm, List.find?_cons_of_pos _ (by simpa using hm)]
      rfl
    · rw [mimeScan, if_neg hm, List.find?_cons_of_neg _ (by simpa using hm), ih]

/-- C9: `get_mime_type` returns "application/octet-stream" when the
path contains no '.'; otherwise it matches the substring from the last
'.' (inclusive) case-insensitively against the MIME table in table
order, first match wins, default when none matches.  For a directory
request the served path is the index-appended one, whose extension is
".html", so the resolved type is "text/html". -/
theorem c9_get_mime_type (p : List Nat) :
    ((46 : Nat) ∉ p → get_mime_type p = strBytes "application/octet-stream") ∧
    (∀ i, p[i]? = some 46 → (∀ j, i < j → p[j]? ≠ some 46) →
      get_mime_type p =
        ((mime_types.find? (fun q => strcaseEq (p.drop i) q.1)).map Prod.snd).getD
          (strBytes "application/octet-stream")) ∧
    (∀ fs sz, fs.stat (base_filepath p) = some (true, sz) → p.length ≤ 511 →
      (∃ pre, resolve_path fs p = pre ++ strBytes "index.html") ∧
      get_mime_type (resolve_path fs p) = strBytes "text/html") := by
  refine ⟨?_, ?_, ?_⟩
  · intro hno
    unfold get_mime_type
    rw [(lastIdx_none_iff 46 p).mpr hno]
  · intro i hi hlast
    obtain ⟨k, hk⟩ := lastIdx_isSome_of_mem 46 p (List.getElem?_mem hi)
    obtain ⟨hk1, hk2⟩ := lastIdx_getElem 46 p k hk
    have hik : i = k := by
      rcases Nat.lt_trichotomy i k with hlt | heq | hgt
      · exact absurd hk1 (hlast k hlt)
      · exact heq
      · exact absurd hi (hk2 i hgt)
    subst hik
    unfold get_mime_type
    rw [hk]
    dsimp only
    rw [mimeScan_eq_find]
  · intro fs sz hstat hplen
    have hbl : (base_filepath p).length = 8 + p.length := by
      unfold base_filepath
      rw [List.take_of_length_le]
      · simp only [List.length_append]
        congr 1
      · simp only [List.length_append]
        have : (strBytes "./public").length = 8 := by decide
        omega
    have hidx : lastIdx 46 (strBytes "index.html") = some 5 := by decide
    have hres : ∃ pre, resolve_path fs p = pre ++ strBytes "index.html" ∧
        pre.length ≤ 520 := by
      unfold resolve_path
      dsimp only
      rw [hstat]
      dsimp only
      by_cases hsl : base_filepath p ≠ [] ∧ (base_filepath p).getLast? ≠ some 47
      · rw [if_pos hsl]
        refine ⟨(base_filepath p ++ [47]).take 1023, ?_, ?_⟩
        · rw [List.take_of_length_le]
          simp only [List.length_take, List.length_append, List.length_cons,
            List.length_nil]
          have : (strBytes "index.html").length = 10 := by decide
          omega
        · simp only [List.length_take, List.length_append, List.length_cons,
            List.length_nil]
          omega
      · rw [if_neg hsl]
        refine ⟨base_filepath p, ?_, by omega⟩
        rw [List.take_of_length_le]
        simp only [List.length_append]
        have : (strBytes "index.html").length = 10 := by decide
        omega
    obtain ⟨pre, hpre, hprelen⟩ := hres
    refine ⟨⟨pre, hpre⟩, ?_⟩
    rw [hpre]
    unfold get_mime_type
    rw [lastIdx_append_some 46 pre (strBytes "index.html") 5 hidx]
    dsimp only
    have hdrop : (pre ++ strBytes "index.html").drop (pre.length + 5) =
        (strBytes "index.html").drop 5 := List.drop_append 5
    rw [hdrop]
    decide

/-- Witness for C9, at the path "./public/style.css": the last dot is at
index 14 and the resolved type is "text/css". -/
theorem c9_get_mime_type_witness :
    get_mime_type (strBytes "./public/style.css") =
      ((mime_types.find?
        (fun q => strcaseEq ((strBytes "./public/style.css").drop 14) q.1)).map
          Prod.snd).getD (strBytes "application/octet-stream") :=
  (c9_get_mime_type (strBytes "./public/style.css")).2.1 14 (by decide)
    (by
      intro j hj hcon
      have h18 : (strBytes "./public/style.css").length = 18 := by decide
      have hjlt : j < 18 := by
        by_contra hge
        rw [List.getElem?_eq_none (by omega)] at hcon
        cases hcon
      interval_cases j <;> revert hcon <;> decide)

/-- `strstr(path, "..")` finds a match exactly when the byte string
splits around the two-byte sequence `[46, 46]`. -/
theorem containsDotDot_iff (l : List Nat) :
    containsDotDot l = true ↔ ∃ a b, l = a ++ [46, 46] ++ b := by
  induction l with
  | nil =>
    constructor
    · intro h
      simp [containsDotDot] at h
    · rintro ⟨a, b, hab⟩
      exact absurd hab (by simp)
  | cons x rest ih =>
    cases rest with
    | nil =>
      constructor
      · intro h
        simp [containsDotDot] at h
      · rintro ⟨a, b, hab⟩
        rcases a with _ | ⟨c, a'⟩ <;> simp at hab
    | cons y rest2 =>
      rw [show containsDotDot (x :: y :: rest2) =
        ((decide (x = 46) && decide (y = 46)) || containsDotDot (y :: rest2)) from rfl]
      rw [Bool.or_eq_true, Bool.and_eq_true, decide_eq_true_iff, decide_eq_true_iff]
      constructor
      · rintro (⟨hx, hy⟩ | h)
        · subst hx
          subst hy
          exact ⟨[], rest2, rfl⟩
        · obtain ⟨a, b, hab⟩ := ih.mp h
          exact ⟨x :: a, b, by simp [hab]⟩
      · rintro ⟨a, b, hab⟩
        rcases a with _ | ⟨c, a'⟩
        · simp at hab
          exact Or.inl ⟨hab.1, hab.2.1⟩
        · simp at hab
          exact Or.inr (ih.mpr ⟨a', b, by simp [hab.2]⟩)

theorem is_safe_path_false_of (p : List Nat)
    (h : containsDotDot p = true ∨ p.head? ≠ some 47) : is_safe_path p = false := by
  unfold is_safe_path
  by_cases hd : containsDotDot p
  · rw [if_pos hd]
  · rw [if_neg hd]
    rcases h with h | h
    · exact absurd h hd
    · rw [if_pos h]

/-- C1: for every request whose parsed path contains the two-byte
sequence ".." or does not begin with '/', the static file resolver
performs no filesystem operation at all (no stat, open, fstat, read —
the event trace is empty, under every allocation oracle), and appends
exactly the fixed 400 response to the response buffer, so no file
outside the document root can be served for such a request. -/
theorem c1_unsafe_path_rejected (fs : FS) (cnt : Nat) (res : Response) (p : List Nat)
    (hres : Inv res)
    (hbad : (∃ a b, p = a ++ [46, 46] ++ b) ∨ p.head? ≠ some 47) :
    (∀ alloc c, (serve_static_file fs alloc c p res).2.2 = []) ∧
    ∃ r' c', serve_static_file fs allocOk cnt p res = (r', c', []) ∧
      assembled r' = assembled res ++ resp400 := by
  have hb : is_safe_path p = false := by
    refine is_safe_path_false_of p ?_
    rcases hbad with h | h
    · exact Or.inl ((containsDotDot_iff p).mpr h)
    · exact Or.inr h
  refine ⟨fun alloc c => serve_static_unsafe_ops fs alloc c res p hb, ?_⟩
  obtain ⟨r', c', heq, ha, _⟩ := serve_static_unsafe fs cnt res p hres hb
  exact ⟨r', c', heq, ha⟩

/-- Witness for C1, at the request path "/../etc/passwd". -/
theorem c1_unsafe_path_rejected_witness :
    (∀ alloc c,
      (serve_static_file fsEmpty alloc c (strBytes "/../etc/passwd") freshRes).2.2 = []) ∧
    ∃ r' c', serve_static_file fsEmpty allocOk 1 (strBytes "/../etc/passwd") freshRes =
        (r', c', []) ∧
      assembled r' = assembled freshRes ++ resp400 :=
  c1_unsafe_path_rejected fsEmpty 1 freshRes (strBytes "/../etc/passwd") freshRes_inv
    (Or.inl ⟨strBytes "/", strBytes "/etc/passwd", by decide⟩)

/-- Witness for C8: the freshly initialized 8192-byte buffer is
reachable, and the theorem instantiated at it yields the invariant. -/
theorem c8_response_buffer_invariants_witness :
    freshRes.size ≤ freshRes.capacity ∧ freshRes.data.length = freshRes.capacity ∧
      freshRes.data[freshRes.size]? = some 0 :=
  (c8_response_buffer_invariants allocOk).1 freshRes 1
    (Reach.init 8192 freshRes 1 (by omega) (response_init_allocOk 0))

/-- C6: for every parsed request, a method other than "GET" yields the
fixed 405 response with no filesystem event, regardless of path; for a
GET request the route table is scanned in order — "/", "/about",
"/health" — with the first exact match's handler producing the
response, and any other path falling through to `serve_static_file`,
whose own 404 is the result when the file cannot be opened. -/
theorem c6_dispatch (fs : FS) (raw m p q : List Nat) (hne : raw ≠ [])
    (hparse : parse_request_line ((raw.take 8191).takeWhile (· ≠ 0)) = some (m, p, q)) :
    (m ≠ strBytes "GET" → handle_request fs allocOk raw = ([resp405], [])) ∧
    (m = strBytes "GET" → p = strBytes "/" →
      handle_request fs allocOk raw = ([respHome], [])) ∧
    (m = strBytes "GET" → p = strBytes "/about" →
      handle_request fs allocOk raw = ([respAbout], [])) ∧
    (m = strBytes "GET" → p = strBytes "/health" →
      handle_request fs allocOk raw = ([respHealth], [])) ∧
    (m = strBytes "GET" → p ≠ strBytes "/" → p ≠ strBytes "/about" →
      p ≠ strBytes "/health" →
      handle_request fs allocOk raw =
        ([assembled (serve_static_file fs allocOk 1 p freshRes).1],
         (serve_static_file fs allocOk 1 p freshRes).2.2) ∧
      (is_safe_path p = true → fs.openOk (resolve_path fs p) = false →
        (handle_request fs allocOk raw).1 = [resp404])) := by
  refine ⟨?_, ?_, ?_, ?_, ?_⟩
  · intro hm
    exact handle_request_405 fs raw m p q hne hparse hm
  · rintro rfl rfl
    exact handle_request_route_home fs raw q hne hparse
  · rintro rfl rfl
    exact handle_request_route_about fs raw q hne hparse
  · rintro rfl rfl
    exact handle_request_route_health fs raw q hne hparse
  · intro hm h1 h2 h3
    subst hm
    have hmain := handle_request_static fs raw p q hne hparse h1 h2 h3
    refine ⟨hmain, ?_⟩
    intro hsafe hopen
    obtain ⟨r', c', heq, ha, _⟩ :=
      serve_static_open_fail fs 1 freshRes p freshRes_inv hsafe hopen
    rw [hmain, heq]
    dsimp only
    rw [ha, assembled_freshRes]
    rfl

/-- Witness for C6: a POST request gets the fixed 405 response and no
filesystem event. -/
theorem c6_dispatch_witness :
    handle_request fsEmpty allocOk (strBytes "POST / HTTP/1.1") = ([resp405], []) :=
  (c6_dispatch fsEmpty (strBytes "POST / HTTP/1.1") (strBytes "POST") (strBytes "/")
    [] (by decide) (by decide)).1 (by decide)

/-- Every trace branch of `serve_static_file` has as many `close` events
as successful opens and as many `free` events as successful `malloc`s,
under any allocation oracle. -/
theorem serve_static_balanced (fs : FS) (alloc : Nat → Bool) (cnt : Nat)
    (res : Response) (p : List Nat) :
    balancedTrace (serve_static_file fs alloc cnt p res).2.2 := by
  unfold serve_static_file
  by_cases h1 : is_safe_path p = false
  · rw [if_pos h1]
    dsimp only
    exact ⟨rfl, rfl⟩
  · rw [if_neg h1]
    dsimp only
    by_cases hopen : fs.openOk (resolve_path fs p) = false
    · rw [if_pos hopen]
      dsimp only
      exact ⟨rfl, rfl⟩
    · rw [if_neg hopen]
      rcases hfs : fs.fstat (resolve_path fs p) with _ | sz
      · exact ⟨rfl, rfl⟩
      · dsimp only
        by_cases hmal : alloc cnt = false
        · rw [if_pos hmal]
          dsimp only
          exact ⟨rfl, rfl⟩
        · rw [if_neg hmal]
          by_cases hrd : ((fs.readBytes (resolve_path fs p)).take sz).length ≠ sz
          · rw [if_pos hrd]
            dsimp only
            exact ⟨rfl, rfl⟩
          · rw [if_neg hrd]
            dsimp only
            exact ⟨rfl, rfl⟩

/-- C7: on a safe path, `serve_static_file` yields exactly one of: 404
when open fails; 500 when fstat fails; 500 when the file-sized
allocation fails; 500 when the read returns fewer bytes than the stat
size; and otherwise a 200 response whose body is the file's bytes and
whose content type comes from the MIME resolver on the resolved path.
On every path — error or not, under any allocation oracle — each
successful open is matched by a close and each successful malloc by a
free in the event trace. -/
theorem c7_serve_static_file (fs : FS) (cnt : Nat) (res : Response) (p : List Nat)
    (hres : Inv res) (hsafe : is_safe_path p = true)
    (hsz : ∀ n, fs.fstat (resolve_path fs p) = some n → n < 10 ^ 1000) :
    (∀ alloc c, balancedTrace (serve_static_file fs alloc c p res).2.2) ∧
    (fs.openOk (resolve_path fs p) = false →
      ∃ r' c' ops, serve_static_file fs allocOk cnt p res = (r', c', ops) ∧
        assembled r' = assembled res ++ resp404) ∧
    (fs.openOk (resolve_path fs p) = true → fs.fstat (resolve_path fs p) = none →
      ∃ r' c' ops, serve_static_file fs allocOk cnt p res = (r', c', ops) ∧
        assembled r' = assembled res ++ resp500) ∧
    (∀ alloc sz, fs.openOk (resolve_path fs p) = true →
      fs.fstat (resolve_path fs p) = some sz →
      alloc cnt = false → (∀ c, cnt + 1 ≤ c → alloc c = true) →
      ∃ r' c' ops, serve_static_file fs alloc cnt p res = (r', c', ops) ∧
        FSOp.mallocOp sz false ∈ ops ∧
        assembled r' = assembled res ++ resp500) ∧
    (∀ sz, fs.openOk (resolve_path fs p) = true →
      fs.fstat (resolve_path fs p) = some sz →
      ((fs.readBytes (resolve_path fs p)).take sz).length ≠ sz →
      ∃ r' c' ops, serve_static_file fs allocOk cnt p res = (r', c', ops) ∧
        assembled r' = assembled res ++ resp500) ∧
    (∀ sz, fs.openOk (resolve_path fs p) = true →
      fs.fstat (resolve_path fs p) = some sz →
      ((fs.readBytes (resolve_path fs p)).take sz).length = sz →
      ∃ r' c' ops, serve_static_file fs allocOk cnt p res = (r', c', ops) ∧
        assembled r' = assembled res ++
          http_response_bytes 200 (statusText 200)
            (get_mime_type (resolve_path fs p))
            ((fs.readBytes (resolve_path fs p)).take sz)) := by
  refine ⟨fun alloc c => serve_static_balanced fs alloc c res p, ?_, ?_, ?_, ?_, ?_⟩
  · intro hopen
    obtain ⟨r', c', heq, ha, _⟩ :=
      serve_static_open_fail fs cnt res p hres hsafe hopen
    exact ⟨r', c', _, heq, ha⟩
  · intro hopen hfstat
    obtain ⟨r', c', heq, ha, _⟩ :=
      serve_static_fstat_fail fs cnt res p hres hsafe hopen hfstat
    exact ⟨r', c', _, heq, ha⟩
  · intro alloc sz hopen hfstat hmal hal
    obtain ⟨r', c', heq, ha, _⟩ :=
      serve_static_malloc_fail fs alloc cnt res p sz hres hsafe hopen hfstat hmal hal
    exact ⟨r', c', _, heq, by simp, ha⟩
  · intro sz hopen hfstat hshort
    obtain ⟨r', c', heq, ha, _⟩ :=
      serve_static_short_read fs cnt res p sz hres hsafe hopen hfstat hshort
    exact ⟨r', c', _, heq, ha⟩
  · intro sz hopen hfstat hread
    obtain ⟨r', c', heq, ha, _⟩ :=
      serve_static_200 fs cnt res p sz hres hsafe hopen hfstat hread
        (hsz sz hfstat)
    exact ⟨r', c', _, heq, ha⟩

/-- Witness for C7: with the empty filesystem and the safe path "/x",
opening fails and the resolver produces exactly the fixed 404 bytes. -/
theorem c7_serve_static_file_witness :
    ∃ r' c' ops, serve_static_file fsEmpty allocOk 1 (strBytes "/x") freshRes =
        (r', c', ops) ∧
      assembled r' = assembled freshRes ++ resp404 :=
  (c7_serve_static_file fsEmpty 1 freshRes (strBytes "/x") freshRes_inv (by decide)
    (fun n h => nomatch h)).2.1 rfl

/-- C10: each fixed error response's Content-Length header equals the
number of body bytes appended and transmitted (the explicit length
argument).  For 400 the count is 24, exactly the HTML text's length;
for 404, 405 and 500 the counts are 23, 32 and 35 — one more than the
visible HTML texts (22, 31 and 34 bytes), so those transmitted bodies
end with the string literal's NUL byte, counted in Content-Length. -/
theorem c10_fixed_error_bodies :
    (assembled (send_http_response allocOk 1 freshRes 400 (strBytes "text/html")
        (cstr "<h1>400 Bad Request</h1>") 24).1 =
      strBytes "HTTP/1.1 400 Bad Request\r\nContent-Type: text/html\r\nContent-Length: 24\r\nConnection: close\r\n\r\n<h1>400 Bad Request</h1>" ∧
      (strBytes "<h1>400 Bad Request</h1>").length = 24) ∧
    (assembled (send_http_response allocOk 1 freshRes 404 (strBytes "text/html")
        (cstr "<h1>404 Not Found</h1>") 23).1 =
      strBytes "HTTP/1.1 404 Not Found\r\nContent-Type: text/html\r\nContent-Length: 23\r\nConnection: close\r\n\r\n<h1>404 Not Found</h1>" ++ [0] ∧
      (strBytes "<h1>404 Not Found</h1>").length = 22) ∧
    (assembled (send_http_response allocOk 1 freshRes 405 (strBytes "text/html")
        (cstr "<h1>405 Method Not Allowed</h1>") 32).1 =
      strBytes "HTTP/1.1 405 Method Not Allowed\r\nContent-Type: text/html\r\nContent-Length: 32\r\nConnection: close\r\n\r\n<h1>405 Method Not Allowed</h1>" ++ [0] ∧
      (strBytes "<h1>405 Method Not Allowed</h1>").length = 31) ∧
    (assembled (send_http_response allocOk 1 freshRes 500 (strBytes "text/html")
        (cstr "<h1>500 Internal Server Error</h1>") 35).1 =
      strBytes "HTTP/1.1 500 Internal Server Error\r\nContent-Type: text/html\r\nContent-Length: 35\r\nConnection: close\r\n\r\n<h1>500 Internal Server Error</h1>" ++ [0] ∧
      (strBytes "<h1>500 Internal Server Error</h1>").length = 34) := by
  obtain ⟨r1, c1, e1, a1, _⟩ := send_http_response_ok 1 freshRes 400
    (strBytes "text/html") (cstr "<h1>400 Bad Request</h1>") 24 freshRes_inv
    (by decide) (by decide) (by decide) (by decide)
  obtain ⟨r2, c2, e2, a2, _⟩ := send_http_response_ok 1 freshRes 404
    (strBytes "text/html") (cstr "<h1>404 Not Found</h1>") 23 freshRes_inv
    (by decide) (by decide) (by decide) (by decide)
  obtain ⟨r3, c3, e3, a3, _⟩ := send_http_response_ok 1 freshRes 405
    (strBytes "text/html") (cstr "<h1>405 Method Not Allowed</h1>") 32 freshRes_inv
    (by decide) (by decide) (by decide) (by decide)
  obtain ⟨r4, c4, e4, a4, _⟩ := send_http_response_ok 1 freshRes 500
    (strBytes "text/html") (cstr "<h1>500 Internal Server Error</h1>") 35 freshRes_inv
    (by decide) (by decide) (by decide) (by decide)
  refine ⟨⟨?_, by decide⟩, ⟨?_, by decide⟩, ⟨?_, by decide⟩, ⟨?_, by decide⟩⟩
  · rw [e1]
    dsimp only
    rw [a1, assembled_freshRes]
    decide
  · rw [e2]
    dsimp only
    rw [a2, assembled_freshRes]
    decide
  · rw [e3]
    dsimp only
    rw [a3, assembled_freshRes]
    decide
  · rw [e4]
    dsimp only
    rw [a4, assembled_freshRes]
    decide

/-- C3 counterexample: the claim says that when the initial read
delivers at least one byte, exactly one well-formed response is written
before closing.  But when `response_init`'s `malloc` fails (the
all-failing allocation oracle), `handle_request` returns without
writing anything, although the read delivered 14 bytes. -/
theorem c3_counterexample :
    handle_request fsEmpty (fun _ => false) (strBytes "GET / HTTP/1.1") = ([], []) ∧
    strBytes "GET / HTTP/1.1" ≠ [] := by decide

/-- C3 (amended): whenever the initial read delivers at least one byte
and every memory allocation succeeds, the connection handler writes
exactly one well-formed HTTP response (status line, Content-Type,
Content-Length equal to the transmitted body's byte count, Connection:
close, blank line, body); with no bytes read no response is sent, and a
failed initial buffer allocation is a further no-response case. -/
theorem c3_one_well_formed_response (fs : FS) (raw : List Nat) (hne : raw ≠ [])
    (hsz : ∀ pth n, fs.fstat pth = some n → n < 10 ^ 1000) :
    ∃ w ops, handle_request fs allocOk raw = ([w], ops) ∧ WellFormedHttp w := by
  rcases hp : parse_request_line ((raw.take 8191).takeWhile (· ≠ 0)) with _ | ⟨m, p, q⟩
  · exact ⟨resp400, [], handle_request_parse_fail fs raw hne hp,
      400, statusText 400, strBytes "text/html",
      strBytes "<h1>400 Bad Request</h1>", rfl⟩
  · by_cases hm : m = strBytes "GET"
    swap
    · exact ⟨resp405, [], handle_request_405 fs raw m p q hne hp hm,
        405, statusText 405, strBytes "text/html",
        strBytes "<h1>405 Method Not Allowed</h1>" ++ [0], rfl⟩
    · subst hm
      by_cases h1 : p = strBytes "/"
      · subst h1
        exact ⟨respHome, [], handle_request_route_home fs raw q hne hp,
          200, statusText 200, strBytes "text/html",
          strBytes "<h1>Welcome!</h1><p>Simple C HTTP Server</p>", rfl⟩
      by_cases h2 : p = strBytes "/about"
      · subst h2
        exact ⟨respAbout, [], handle_request_route_about fs raw q hne hp,
          200, statusText 200, strBytes "text/html",
          strBytes "<h1>About</h1><p>Multithreaded C Server with Static Files</p>", rfl⟩
      by_cases h3 : p = strBytes "/health"
      · subst h3
        exact ⟨respHealth, [], handle_request_route_health fs raw q hne hp,
          200, statusText 200, strBytes "application/json",
          strBytes "\x7b\"status\":\"healthy\",\"threads\":\"enabled\"\x7d", rfl⟩
      · have hmain := handle_request_static fs raw p q hne hp h1 h2 h3
        by_cases hsafe : is_safe_path p = true
        · by_cases hopen : fs.openOk (resolve_path fs p) = false
          · obtain ⟨r', c', heq, ha, _⟩ :=
              serve_static_open_fail fs 1 freshRes p freshRes_inv hsafe hopen
            rw [heq] at hmain
            dsimp only at hmain
            refine ⟨assembled r', _, hmain, 404, statusText 404, strBytes "text/html",
              strBytes "<h1>404 Not Found</h1>" ++ [0], ?_⟩
            rw [ha, assembled_freshRes, List.nil_append]
          · rw [Bool.not_eq_false] at hopen
            rcases hfstat : fs.fstat (resolve_path fs p) with _ | sz
            · obtain ⟨r', c', heq, ha, _⟩ :=
                serve_static_fstat_fail fs 1 freshRes p freshRes_inv hsafe hopen hfstat
              rw [heq] at hmain
              dsimp only at hmain
              refine ⟨assembled r', _, hmain, 500, statusText 500, strBytes "text/html",
                strBytes "<h1>500 Internal Server Error</h1>" ++ [0], ?_⟩
              rw [ha, assembled_freshRes, List.nil_append]
            · by_cases hread : ((fs.readBytes (resolve_path fs p)).take sz).length = sz
              · obtain ⟨r', c', heq, ha, _⟩ :=
                  serve_static_200 fs 1 freshRes p sz freshRes_inv hsafe hopen hfstat
                    hread (hsz _ sz hfstat)
                rw [heq] at hmain
                dsimp only at hmain
                refine ⟨assembled r', _, hmain, 200, statusText 200,
                  get_mime_type (resolve_path fs p),
                  (fs.readBytes (resolve_path fs p)).take sz, ?_⟩
                rw [ha, assembled_freshRes, List.nil_append]
              · obtain ⟨r', c', heq, ha, _⟩ :=
                  serve_static_short_read fs 1 freshRes p sz freshRes_inv hsafe hopen
                    hfstat hread
                rw [heq] at hmain
                dsimp only at hmain
                refine ⟨assembled r', _, hmain, 500, statusText 500, strBytes "text/html",
                  strBytes "<h1>500 Internal Server Error</h1>" ++ [0], ?_⟩
                rw [ha, assembled_freshRes, List.nil_append]
        · rw [Bool.not_eq_true] at hsafe
          obtain ⟨r', c', heq, ha, _⟩ :=
            serve_static_unsafe fs 1 freshRes p freshRes_inv hsafe
          rw [heq] at hmain
          dsimp only at hmain
          refine ⟨assembled r', _, hmain, 400, statusText 400, strBytes "text/html",
            strBytes "<h1>400 Bad Request</h1>", ?_⟩
          rw [ha, assembled_freshRes, List.nil_append]

/-- Witness for C3 (amended): the empty filesystem with a well-formed
GET request yields exactly one well-formed response. -/
theorem c3_one_well_formed_response_witness :
    ∃ w ops, handle_request fsEmpty allocOk (strBytes "GET /nope HTTP/1.1") =
      ([w], ops) ∧ WellFormedHttp w :=
  c3_one_well_formed_response fsEmpty (strBytes "GET /nope HTTP/1.1") (by decide)
    (fun pth n h => nomatch h)

/-! ## C2: allocation failure while growing the response buffer -/

theorem c2_send_partial :
    ∃ r5, send_http_response allocTwo (1 + 1) freshRes 200
        (strBytes "application/octet-stream") (List.replicate 8200 48) 8200 =
      (r5, 1 + 1 + 1) ∧ assembled r5 = c2hdr := by
  unfold send_http_response
  rw [response_printf_fit]
  on_goal 2 => decide
  on_goal 2 => decide
  dsimp only
  rw [response_printf_fit]
  on_goal 2 => decide
  on_goal 2 => decide
  dsimp only
  rw [response_printf_fit]
  on_goal 2 => decide
  on_goal 2 => decide
  dsimp only
  rw [response_printf_fit]
  on_goal 2 => decide
  on_goal 2 => decide
  dsimp only
  rw [response_printf_fit]
  on_goal 2 => decide
  on_goal 2 => decide
  dsimp only
  rw [if_pos (by decide : (0:Nat) < 8200)]
  rw [response_append_fail]
  on_goal 2 => simp only [List.length_take, List.length_replicate]; decide
  on_goal 2 => decide
  dsimp only
  exact ⟨_, rfl, by decide⟩

theorem c2_serve_partial :
    ∃ r5, (serve_static_file fsBig allocTwo 1 (strBytes "/a") freshRes).1 = r5 ∧
      assembled r5 = c2hdr := by
  obtain ⟨r5, hs, ha⟩ := c2_send_partial
  refine ⟨r5, ?_, ha⟩
  unfold serve_static_file
  rw [if_neg (show ¬ (is_safe_path (strBytes "/a") = false) by decide)]
  dsimp only
  rw [if_neg (show ¬ (fsBig.openOk (resolve_path fsBig (strBytes "/a")) = false)
    by decide)]
  rw [show fsBig.fstat (resolve_path fsBig (strBytes "/a")) = some 8200 from rfl]
  dsimp only
  rw [if_neg (show ¬ (allocTwo 1 = false) by decide)]
  rw [if_neg (show
    ¬ (((fsBig.readBytes (resolve_path fsBig (strBytes "/a"))).take 8200).length ≠ 8200)
    by simp only [fsBig, List.length_take, List.length_replicate]; omega)]
  dsimp only
  rw [show get_mime_type (resolve_path fsBig (strBytes "/a")) =
    strBytes "application/octet-stream" from by decide]
  rw [show (fsBig.readBytes (resolve_path fsBig (strBytes "/a"))).take 8200 =
    List.replicate 8200 48 from List.take_of_length_le
      (by simp only [fsBig, List.length_replicate]; omega)]
  rw [hs]

/-- C2 counterexample: with every path a plain 8200-byte file, and the
allocation oracle granting the response buffer and the file buffer but
denying the growth reallocation needed to append the body, the
connection handler still writes a non-empty partial response: the
header bytes announcing 8200 body bytes, followed by no body. -/
theorem c2_counterexample :
    (handle_request fsBig allocTwo (strBytes "GET /a HTTP/1.1")).1 = [c2hdr] ∧
    c2hdr ≠ [] ∧
    allocTwo 0 = true ∧ allocTwo 1 = true ∧ allocTwo 2 = false := by
  obtain ⟨r5, hs1, ha⟩ := c2_serve_partial
  refine ⟨?_, by decide, rfl, rfl, rfl⟩
  rw [handle_request_static_g fsBig allocTwo (strBytes "GET /a HTTP/1.1")
    (strBytes "/a") [] (by decide) rfl (by decide) (by decide) (by decide) (by decide),
    hs1, ha]

/-- C2 (amended): an allocation failure while growing the buffer is
signaled to the caller as -1 with the buffer left unchanged, but every
caller discards the status: whenever the initial read delivered bytes
and the initial buffer allocation succeeds, the connection handler
writes exactly one byte string whatever allocations fail later, so the
partially assembled response (headers without body) does reach the
socket. -/
theorem c2_growth_failure_amended :
    (∀ (alloc : Nat → Bool) (cnt : Nat) (r : Response) (d : List Nat),
        r.capacity < r.size + d.length + 1 → alloc cnt = false →
        response_append alloc cnt r d = (false, r, cnt + 1)) ∧
    (∀ (fs : FS) (alloc : Nat → Bool) (raw : List Nat), raw ≠ [] → alloc 0 = true →
        ∃ w ops, handle_request fs alloc raw = ([w], ops)) :=
  ⟨fun alloc cnt r d h1 h2 => response_append_fail alloc cnt r d h1 h2,
   fun fs alloc raw h1 h2 => handle_request_one_write fs alloc raw h1 h2⟩

/-- Witness for C2 (amended), at a buffer too small for an 8192-byte
datum with the oracle denying allocation 5, and at the empty filesystem
with the two-grant oracle. -/
theorem c2_growth_failure_amended_witness :
    response_append allocTwo 5 freshRes (List.replicate 8192 48) =
      (false, freshRes, 5 + 1) ∧
    ∃ w ops, handle_request fsEmpty allocTwo (strBytes "GET /a HTTP/1.1") =
      ([w], ops) :=
  ⟨c2_growth_failure_amended.1 allocTwo 5 freshRes (List.replicate 8192 48)
      (by simp only [freshRes, List.length_replicate]; omega) (by decide),
   c2_growth_failure_amended.2 fsEmpty allocTwo (strBytes "GET /a HTTP/1.1")
      (by decide) rfl⟩

end Server
